import Mathlib

/-! midi-viewer: event classification, active-note tracking, filter and bounded log

A shallow embedding of the Go packages `internal/midi`, `internal/models` and
`internal/ui/components` (event viewer and options modal), followed by theorems
about them.

Conventions of the embedding:

* `uint8` values are natural numbers; Go `int` values are integers.
* A Go `map[K]V` that has been allocated with `make` is a `GoMap K V`: the value
  stored under each key, if any.  Reading a missing key yields the zero value.
* The gomidi library is external to the repository.  A `midi.Message` is
  represented by what the library reports about it: its bytes and the outcome of
  every probe (`GetNoteOn`, `GetNoteOff`, ..., `Is`) that the repository calls.
* `time.Now()` is an input (`now`) of `ParseMessage` and of `Update`.
* The order in which `range` visits a map is an input (`order`) of
  `renderActiveNotes`; `GoMap.isRangeOrder` says which orders Go allows.
* A run-time panic is the result `none`.
-/

namespace MidiViewer

/-! ## Go maps -/

/-- An allocated Go map: the value stored under each key, if any. -/
def GoMap (K V : Type) : Type := K → Option V

namespace GoMap

variable {K V : Type}

/-- The map `make(map[K]V)`. -/
def empty : GoMap K V := fun _ => none

/-- The two-result read `v, ok := m[k]`. -/
def get? (m : GoMap K V) (k : K) : Option V := m k

/-- The assignment `m[k] = v`. -/
def set [DecidableEq K] (m : GoMap K V) (k : K) (v : V) : GoMap K V :=
  fun k' => if k' = k then some v else m k'

/-- The builtin `delete(m, k)`. -/
def delete [DecidableEq K] (m : GoMap K V) (k : K) : GoMap K V :=
  fun k' => if k' = k then none else m k'

/-- The read `m[k]` of a `map[K]bool`: `false` when the key is missing. -/
def getBool (m : GoMap K Bool) (k : K) : Bool := (m k).getD false

end GoMap

/-! ## Package `midi` -/

namespace midi

/-- The message types of gomidi that `getMessageType` tests with `Is`. -/
inductive Type_ where
  | TimingClockMsg
  | StartMsg
  | StopMsg
  | ContinueMsg
  | ActiveSenseMsg
  | ResetMsg
  deriving DecidableEq, Repr

/-- A gomidi `midi.Message` as the repository observes it: `Bytes` is the result
of `msg.Bytes()`, and each other field is the outcome of the probe of the same
name (`some` of the extracted values when the probe returns true, `none` when it
returns false). -/
structure Message where
  Bytes : List Nat
  GetNoteOn : Option (Nat × Nat × Nat)
  GetNoteOff : Option (Nat × Nat × Nat)
  GetControlChange : Option (Nat × Nat × Nat)
  GetProgramChange : Option (Nat × Nat)
  GetPitchBend : Option (Nat × Int × Nat)
  GetPolyAfterTouch : Option (Nat × Nat × Nat)
  GetAfterTouch : Option (Nat × Nat)
  GetSysEx : Option (List Nat)
  GetChannel : Option Nat
  Is : Type_ → Bool

/-- Device (the driver port is an external handle and is left out). -/
structure Device where
  Name : String
  Number : Int
  deriving DecidableEq, Repr

/-- Event: a MIDI event with metadata. -/
structure Event where
  Timestamp : Nat
  Message : Message
  Channel : Nat
  MessageType : String
  Data : String
  RawBytes : List Nat

/-- The function `getMessageType`: the label of the first probe that matches. -/
def getMessageType (msg : Message) : String :=
  if msg.GetNoteOn.isSome then "Note On"
  else if msg.GetNoteOff.isSome then "Note Off"
  else if msg.GetControlChange.isSome then "CC"
  else if msg.GetProgramChange.isSome then "Program Change"
  else if msg.GetPitchBend.isSome then "Pitch Bend"
  else if msg.GetPolyAfterTouch.isSome then "Poly Aftertouch"
  else if msg.GetAfterTouch.isSome then "Aftertouch"
  else if msg.GetSysEx.isSome then "SysEx"
  else if msg.Is Type_.TimingClockMsg then "Clock"
  else if msg.Is Type_.StartMsg then "Start"
  else if msg.Is Type_.StopMsg then "Stop"
  else if msg.Is Type_.ContinueMsg then "Continue"
  else if msg.Is Type_.ActiveSenseMsg then "Active Sense"
  else if msg.Is Type_.ResetMsg then "Reset"
  else "Unknown"

/-- The rendering `fmt.Sprintf("%v", bytes)` of a byte slice. -/
def formatBytes (bt : List Nat) : String :=
  "[" ++ " ".intercalate (bt.map toString) ++ "]"

/-- The function `formatMessageData`. -/
def formatMessageData (msg : Message) : String :=
  match msg.GetNoteOn with
  | some (_, key, vel) => "Note: " ++ toString key ++ ", Velocity: " ++ toString vel
  | none =>
  match msg.GetNoteOff with
  | some (_, key, vel) => "Note: " ++ toString key ++ ", Velocity: " ++ toString vel
  | none =>
  match msg.GetControlChange with
  | some (_, controller, value) =>
    "Controller: " ++ toString controller ++ ", Value: " ++ toString value
  | none =>
  match msg.GetProgramChange with
  | some (_, program) => "Program: " ++ toString program
  | none =>
  match msg.GetPitchBend with
  | some (_, rel, abs) => "Value: " ++ toString rel ++ " (abs: " ++ toString abs ++ ")"
  | none =>
  match msg.GetPolyAfterTouch with
  | some (_, key, pressure) => "Note: " ++ toString key ++ ", Pressure: " ++ toString pressure
  | none =>
  match msg.GetAfterTouch with
  | some (_, pressure) => "Pressure: " ++ toString pressure
  | none => formatBytes msg.Bytes

/-- The function `ParseMessage`; `now` is the reading of `time.Now()`.  `Channel`
keeps its zero value when `GetChannel` reports no channel. -/
def ParseMessage (now : Nat) (msg : Message) : Event :=
  let event : Event :=
    { Timestamp := now
      Message := msg
      RawBytes := msg.Bytes
      MessageType := getMessageType msg
      Data := formatMessageData msg
      Channel := 0 }
  match msg.GetChannel with
  | some ch => { event with Channel := ch }
  | none => event

/-- The table `noteNames` of `NoteToName`. -/
def noteNames : List String :=
  "C" :: "C#" :: "D" :: "D#" :: "E" :: "F" :: "F#" :: "G" :: "G#" :: "A" :: "A#" :: "B" :: []

/-- The function `NoteToName`: `noteNames[note%12]` followed by
`int(note/12) - 1` in decimal. -/
def NoteToName (note : Nat) : String :=
  let octave : Int := ((note / 12 : Nat) : Int) - 1
  let noteName := noteNames.get ⟨note % 12, Nat.mod_lt note (by decide)⟩
  noteName ++ toString octave

/-- A note-on message (status byte `0x90 + channel`) as the probes report it:
only `GetNoteOn` and `GetChannel` match, whatever the velocity. -/
def NoteOn (channel key velocity : Nat) : Message :=
  { Bytes := [144 + channel, key, velocity]
    GetNoteOn := some (channel, key, velocity)
    GetNoteOff := none
    GetControlChange := none
    GetProgramChange := none
    GetPitchBend := none
    GetPolyAfterTouch := none
    GetAfterTouch := none
    GetSysEx := none
    GetChannel := some channel
    Is := fun _ => false }

/-- A note-off message (status byte `0x80 + channel`) as the probes report it:
only `GetNoteOff` and `GetChannel` match. -/
def NoteOffVelocity (channel key velocity : Nat) : Message :=
  { Bytes := [128 + channel, key, velocity]
    GetNoteOn := none
    GetNoteOff := some (channel, key, velocity)
    GetControlChange := none
    GetProgramChange := none
    GetPitchBend := none
    GetPolyAfterTouch := none
    GetAfterTouch := none
    GetSysEx := none
    GetChannel := some channel
    Is := fun _ => false }

/-- A control-change message (status byte `0xB0 + channel`) as the probes report
it: only `GetControlChange` and `GetChannel` match. -/
def ControlChange (channel controller value : Nat) : Message :=
  { Bytes := [176 + channel, controller, value]
    GetNoteOn := none
    GetNoteOff := none
    GetControlChange := some (channel, controller, value)
    GetProgramChange := none
    GetPitchBend := none
    GetPolyAfterTouch := none
    GetAfterTouch := none
    GetSysEx := none
    GetChannel := some channel
    Is := fun _ => false }

/-- The one-byte timing-clock message (`0xF8`) as the probes report it: only
`Is(TimingClockMsg)` matches, and it carries no channel. -/
def TimingClock : Message :=
  { Bytes := [248]
    GetNoteOn := none
    GetNoteOff := none
    GetControlChange := none
    GetProgramChange := none
    GetPitchBend := none
    GetPolyAfterTouch := none
    GetAfterTouch := none
    GetSysEx := none
    GetChannel := none
    Is := fun t => decide (t = Type_.TimingClockMsg) }

/-- A byte sequence that no probe recognises. -/
def unrecognised (bt : List Nat) : Message :=
  { Bytes := bt
    GetNoteOn := none
    GetNoteOff := none
    GetControlChange := none
    GetProgramChange := none
    GetPitchBend := none
    GetPolyAfterTouch := none
    GetAfterTouch := none
    GetSysEx := none
    GetChannel := none
    Is := fun _ => false }

end midi

/-! ## Package `models` -/

namespace models

/-- Filter: the current filtering configuration. -/
structure Filter where
  HiddenChannels : GoMap Nat Bool
  HiddenMessageTypes : GoMap String Bool
  HiddenColumns : GoMap String Bool
  ShowMusicalNotes : Bool

/-- The function `NewFilter`. -/
def NewFilter : Filter :=
  { HiddenChannels := GoMap.empty
    HiddenMessageTypes := GoMap.empty
    HiddenColumns := GoMap.empty
    ShowMusicalNotes := true }

namespace Filter

/-- The method `ShouldShow`. -/
def ShouldShow (f : Filter) (event : midi.Event) : Bool :=
  if f.HiddenChannels.getBool event.Channel then false
  else if f.HiddenMessageTypes.getBool event.MessageType then false
  else true

/-- The method `ToggleChannel`. -/
def ToggleChannel (f : Filter) (ch : Nat) : Filter :=
  if f.HiddenChannels.getBool ch then
    { f with HiddenChannels := f.HiddenChannels.delete ch }
  else
    { f with HiddenChannels := f.HiddenChannels.set ch true }

/-- The method `ToggleMessageType`. -/
def ToggleMessageType (f : Filter) (msgType : String) : Filter :=
  if f.HiddenMessageTypes.getBool msgType then
    { f with HiddenMessageTypes := f.HiddenMessageTypes.delete msgType }
  else
    { f with HiddenMessageTypes := f.HiddenMessageTypes.set msgType true }

/-- The method `IsChannelVisible`. -/
def IsChannelVisible (f : Filter) (ch : Nat) : Bool :=
  !f.HiddenChannels.getBool ch

/-- The method `IsMessageTypeVisible`. -/
def IsMessageTypeVisible (f : Filter) (msgType : String) : Bool :=
  !f.HiddenMessageTypes.getBool msgType

/-- The method `ToggleColumn`. -/
def ToggleColumn (f : Filter) (col : String) : Filter :=
  if f.HiddenColumns.getBool col then
    { f with HiddenColumns := f.HiddenColumns.delete col }
  else
    { f with HiddenColumns := f.HiddenColumns.set col true }

/-- The method `IsColumnVisible`. -/
def IsColumnVisible (f : Filter) (col : String) : Bool :=
  !f.HiddenColumns.getBool col

end Filter

end models

/-! ## Package `theme` -/

namespace theme

/-- Theme: the colour scheme (each colour is its hex string). -/
structure Theme where
  Primary : String
  Secondary : String
  Background : String
  Foreground : String
  Muted : String
  Border : String
  BorderHighlight : String
  Success : String
  Warning : String
  Error : String
  ModalBackground : String
  ModalBorder : String
  deriving DecidableEq, Repr

/-- The function `Dark`. -/
def Dark : Theme :=
  { Primary := "#7aa2f7"
    Secondary := "#bb9af7"
    Background := "#1a1b26"
    Foreground := "#c0caf5"
    Muted := "#565f89"
    Border := "#414868"
    BorderHighlight := "#7aa2f7"
    Success := "#9ece6a"
    Warning := "#e0af68"
    Error := "#f7768e"
    ModalBackground := "#24283b"
    ModalBorder := "#7aa2f7" }

end theme

/-! ## Package `components`: the event viewer -/

namespace components

/-- A `key.Binding` of the bubbles library: the key names it is bound to
(bindings are enabled unless disabled explicitly, which the viewer never does). -/
structure Binding where
  keys : List String
  deriving DecidableEq, Repr

/-- The function `key.Matches` of the bubbles library on one binding: the name of
the pressed key is among the binding's keys. -/
def Matches (k : String) (b : Binding) : Bool := b.keys.contains k

/-- The struct `eventViewerKeyMap`. -/
structure eventViewerKeyMap where
  Pause : Binding
  Options : Binding
  Clear : Binding
  Back : Binding
  Quit : Binding
  deriving DecidableEq, Repr

/-- The variable `eventViewerKeys`. -/
def eventViewerKeys : eventViewerKeyMap :=
  { Pause := { keys := [" "] }
    Options := { keys := ["o"] }
    Clear := { keys := ["c"] }
    Back := { keys := ["esc"] }
    Quit := { keys := ["q", "ctrl+c"] } }

/-- The messages `Update` distinguishes; `OtherMsg` is any message of another
type, for which the type switch has no case. -/
inductive Msg where
  | WindowSizeMsg (Width Height : Int)
  | MIDIEventMsg (Message : midi.Message)
  | KeyMsg (key : String)
  | FilterUpdatedMsg (Filter : models.Filter)
  | OtherMsg

/-- The commands `Update` returns besides `nil`, named by what they produce. -/
inductive Cmd where
  | BackToDeviceSelectionMsg
  | Quit
  | OpenOptionsModalMsg
  deriving DecidableEq, Repr

/-- The field type `map[uint8]map[uint8]bool`: channel -> note -> active. -/
abbrev ActiveNotes : Type := GoMap Nat (GoMap Nat Bool)

/-- EventViewer: the state of the event viewer. -/
structure EventViewer where
  events : List midi.Event
  device : midi.Device
  theme : theme.Theme
  width : Int
  height : Int
  paused : Bool
  filter : models.Filter
  maxEvents : Int
  activeNotes : ActiveNotes

/-- The function `NewEventViewer`. -/
def NewEventViewer (device : midi.Device) (t : theme.Theme) : EventViewer :=
  { device := device
    theme := t
    events := []
    paused := false
    filter := models.NewFilter
    maxEvents := 1000
    activeNotes := GoMap.empty
    width := 0
    height := 0 }

/-- The slice expression `s[low:]`; it panics unless `0 <= low <= len(s)`. -/
def sliceFrom {α : Type} (s : List α) (low : Int) : Option (List α) :=
  if 0 ≤ low ∧ low ≤ (s.length : Int) then some (s.drop low.toNat) else none

namespace EventViewer

/-- The method `GetFilter`. -/
def GetFilter (e : EventViewer) : models.Filter := e.filter

/-- The method `updateActiveNotes`: tracks which notes are currently playing. -/
def updateActiveNotes (e : EventViewer) (event : midi.Event) : EventViewer :=
  if event.MessageType = "Note On" then
    match event.Message.GetNoteOn with
    | some (ch, key, vel) =>
      if vel > 0 then
        match e.activeNotes.get? ch with
        | none =>
          { e with activeNotes := e.activeNotes.set ch ((GoMap.empty : GoMap Nat Bool).set key true) }
        | some notes =>
          { e with activeNotes := e.activeNotes.set ch (notes.set key true) }
      else
        match e.activeNotes.get? ch with
        | none => e
        | some notes => { e with activeNotes := e.activeNotes.set ch (notes.delete key) }
    | none => e
  else if event.MessageType = "Note Off" then
    match event.Message.GetNoteOff with
    | some (ch, key, _) =>
      match e.activeNotes.get? ch with
      | none => e
      | some notes => { e with activeNotes := e.activeNotes.set ch (notes.delete key) }
    | none => e
  else e

/-- The method `Update`; `now` is the reading of the clock that `ParseMessage`
takes for a MIDI message.  The result is `none` when the slice expression
panics. -/
def Update (e : EventViewer) (now : Nat) (msg : Msg) : Option (EventViewer × Option Cmd) :=
  match msg with
  | Msg.WindowSizeMsg w h => some ({ e with width := w, height := h }, none)
  | Msg.MIDIEventMsg m =>
    if !e.paused then
      let event := midi.ParseMessage now m
      let e1 := e.updateActiveNotes event
      if e1.filter.ShouldShow event then
        let e2 := { e1 with events := e1.events ++ [event] }
        if (e2.events.length : Int) > e2.maxEvents then
          match sliceFrom e2.events ((e2.events.length : Int) - e2.maxEvents) with
          | some s => some ({ e2 with events := s }, none)
          | none => none
        else some (e2, none)
      else some (e1, none)
    else some (e, none)
  | Msg.KeyMsg k =>
    if Matches k eventViewerKeys.Back then some (e, some Cmd.BackToDeviceSelectionMsg)
    else if Matches k eventViewerKeys.Quit then some (e, some Cmd.Quit)
    else if Matches k eventViewerKeys.Pause then some ({ e with paused := !e.paused }, none)
    else if Matches k eventViewerKeys.Clear then some ({ e with events := [] }, none)
    else if Matches k eventViewerKeys.Options then some (e, some Cmd.OpenOptionsModalMsg)
    else some (e, none)
  | Msg.FilterUpdatedMsg f => some ({ e with filter := f }, none)
  | Msg.OtherMsg => some (e, none)

/-- The test `_, ok := e.activeNotes[ch][note]`: the map of channel `ch` exists
and has the key `note` (the keys `renderActiveNotes` ranges over). -/
def isActive (e : EventViewer) (ch note : Nat) : Bool :=
  match e.activeNotes.get? ch with
  | some channelNotes => (channelNotes.get? note).isSome
  | none => false

end EventViewer

/-- The viewer after `Update` has handled the messages of `msgs` in turn, each
paired with the clock reading at its arrival; `none` if a step panics. -/
def runUpdates (e : EventViewer) : List (Nat × Msg) → Option EventViewer
  | [] => some e
  | (now, msg) :: rest =>
    match e.Update now msg with
    | some (e1, _) => runUpdates e1 rest
    | none => none

/-- The active-note set of a viewer: the (channel, note) keys of `activeNotes`. -/
def activeSet (e : EventViewer) : Set (Nat × Nat) :=
  {p | e.isActive p.1 p.2 = true}

/-- The viewer after `updateActiveNotes` has consumed the events of `evs` in turn. -/
def feed (e : EventViewer) (evs : List midi.Event) : EventViewer :=
  evs.foldl EventViewer.updateActiveNotes e

/-- Specification side of the tracker invariant: the event is a note on/off
signal for the key (`ch`, `note`), that is a Note On or a Note Off event that
carries this channel and note. -/
def isSignalFor (ch note : Nat) (ev : midi.Event) : Bool :=
  (ev.MessageType == "Note On" &&
    (match ev.Message.GetNoteOn with
     | some (c, k, _) => c == ch && k == note
     | none => false)) ||
  (ev.MessageType == "Note Off" &&
    (match ev.Message.GetNoteOff with
     | some (c, k, _) => c == ch && k == note
     | none => false))

/-- Specification side of the tracker invariant: the event is a "note started"
signal, a Note On with velocity above zero. -/
def isNoteStarted (ev : midi.Event) : Bool :=
  ev.MessageType == "Note On" &&
    (match ev.Message.GetNoteOn with
     | some (_, _, vel) => decide (0 < vel)
     | none => false)

/-- Specification side of the tracker invariant: the last event of the sequence
that is a signal for the key (`ch`, `note`), if there is one. -/
def lastSignalFor (ch note : Nat) (evs : List midi.Event) : Option midi.Event :=
  evs.reverse.find? (isSignalFor ch note)

/-- Specification side of the bounded log: the last `n` entries of a sequence,
in arrival order (oldest first). -/
def lastEntries {α : Type} (n : Nat) (l : List α) : List α :=
  (l.reverse.take n).reverse

/-- The MIDI messages of `msgs`, each with the clock reading at its arrival, as
messages for `Update`. -/
def midiMsgs (msgs : List (Nat × midi.Message)) : List (Nat × Msg) :=
  msgs.map (fun p => (p.1, Msg.MIDIEventMsg p.2))

/-- The events `ParseMessage` makes of the messages of `msgs`. -/
def parseAll (msgs : List (Nat × midi.Message)) : List midi.Event :=
  msgs.map (fun p => midi.ParseMessage p.1 p.2)

end components

namespace midi

/-- Specification side of the decoder: the fourteen structural probes in their
fixed order, each with the label of its kind. -/
def probes : List (String × (Message → Bool)) :=
  [ ("Note On", fun msg => msg.GetNoteOn.isSome),
    ("Note Off", fun msg => msg.GetNoteOff.isSome),
    ("CC", fun msg => msg.GetControlChange.isSome),
    ("Program Change", fun msg => msg.GetProgramChange.isSome),
    ("Pitch Bend", fun msg => msg.GetPitchBend.isSome),
    ("Poly Aftertouch", fun msg => msg.GetPolyAfterTouch.isSome),
    ("Aftertouch", fun msg => msg.GetAfterTouch.isSome),
    ("SysEx", fun msg => msg.GetSysEx.isSome),
    ("Clock", fun msg => msg.Is Type_.TimingClockMsg),
    ("Start", fun msg => msg.Is Type_.StartMsg),
    ("Stop", fun msg => msg.Is Type_.StopMsg),
    ("Continue", fun msg => msg.Is Type_.ContinueMsg),
    ("Active Sense", fun msg => msg.Is Type_.ActiveSenseMsg),
    ("Reset", fun msg => msg.Is Type_.ResetMsg) ]

/-- Specification side of the decoder: the fifteen fixed labels. -/
def labels : List String :=
  ["Note On", "Note Off", "CC", "Program Change", "Pitch Bend", "Poly Aftertouch",
   "Aftertouch", "SysEx", "Clock", "Start", "Stop", "Continue", "Active Sense", "Reset",
   "Unknown"]

/-- The label of the first probe of `ps` that matches `msg`, and `"Unknown"` when
none does (used to reason about `getMessageType`). -/
def firstMatch (ps : List (String × (Message → Bool))) (msg : Message) : String :=
  match ps with
  | [] => "Unknown"
  | p :: rest => if p.2 msg then p.1 else firstMatch rest msg

/-- Specification side of the note namer: the twelve pitch classes of the
documented layout. -/
def pitchClasses : List String :=
  ["C", "C#", "D", "D#", "E", "F"] ++ ["F#", "G", "G#", "A", "A#", "B"]

end midi

namespace models

/-- Specification side of the filter: the set of hidden channels, the channels
whose lookup `HiddenChannels[ch]` is true. -/
def hiddenChannelSet (f : Filter) : Set Nat :=
  {ch | f.HiddenChannels.getBool ch = true}

end models

namespace models

/-- The filter that `ToggleChannel` builds from `NewFilter` by hiding each of the
256 channel numbers of a `uint8` once. -/
def allChannelsHidden : Filter :=
  (List.range 256).foldl Filter.ToggleChannel NewFilter

/-- An event with the given channel and message type and nothing else of note. -/
def eventOn (ch : Nat) (msgType : String) : midi.Event :=
  { Timestamp := 0
    Message := midi.unrecognised []
    Channel := ch
    MessageType := msgType
    Data := ""
    RawBytes := [] }

end models

namespace GoMap

/-- The orders in which `for k := range m` may visit an allocated map: every key
exactly once, in an order that Go leaves unspecified. -/
def isRangeOrder {K V : Type} (m : GoMap K V) (keys : List K) : Prop :=
  keys.Nodup ∧ ∀ k, k ∈ keys ↔ (m k).isSome = true

end GoMap

namespace components

namespace EventViewer

/-- The text `renderActiveNotes` appends for one note: `Ch<ch+1>:<name>`, the
name being `NoteToName(note)` or the note number. -/
def noteLabel (e : EventViewer) (ch note : Nat) : String :=
  let noteName := if e.filter.ShowMusicalNotes then midi.NoteToName note else toString note
  "Ch" ++ toString (ch + 1) ++ ":" ++ noteName

/-- The loops of `renderActiveNotes`, recording the keys they visit: channels 0
to 15 in turn and, for a channel whose map exists and is not empty, its notes in
the order `order ch` in which `range` visits them (`len(channelNotes)` is the
number of notes visited). -/
def activeNoteKeys (e : EventViewer) (order : Nat → List Nat) : List (Nat × Nat) :=
  ((List.range 16).map (fun ch =>
    match e.activeNotes.get? ch with
    | some _ => if 0 < (order ch).length then (order ch).map (fun note => (ch, note)) else []
    | none => [])).flatten

/-- The slice `notes` that `renderActiveNotes` builds, for the iteration order
`order`. -/
def activeNoteLabels (e : EventViewer) (order : Nat → List Nat) : List String :=
  ((List.range 16).map (fun ch =>
    match e.activeNotes.get? ch with
    | some _ => if 0 < (order ch).length then (order ch).map (fun note => e.noteLabel ch note) else []
    | none => [])).flatten

/-- The method `renderActiveNotes` without the colour styling, for the iteration
order `order`. -/
def renderActiveNotes (e : EventViewer) (order : Nat → List Nat) : String :=
  let notes := e.activeNoteLabels order
  "Active Notes: " ++ (if notes.length = 0 then "(none)" else " ".intercalate notes)

/-- The iteration orders that `renderActiveNotes` may meet in state `e`: for every
channel that has a map, `order ch` is an order in which `range` may visit it. -/
def isRangeOrder (e : EventViewer) (order : Nat → List Nat) : Prop :=
  ∀ ch channelNotes, e.activeNotes.get? ch = some channelNotes →
    channelNotes.isRangeOrder (order ch)

end EventViewer

/-- Specification side of the snapshot order: (channel, note) keys compared by
channel first, then by note. -/
def keyLE (p q : Nat × Nat) : Prop :=
  p.1 < q.1 ∨ (p.1 = q.1 ∧ p.2 ≤ q.2)

instance (p q : Nat × Nat) : Decidable (keyLE p q) := by
  unfold keyLE
  infer_instance

/-- The viewer after Note On (0, 60, 100) and Note On (0, 61, 100) on a new
viewer: the notes 60 and 61 sound on channel 0. -/
def twoNotesViewer : EventViewer :=
  feed (NewEventViewer ⟨"port", 0⟩ theme.Dark)
    [midi.ParseMessage 1 (midi.NoteOn 0 60 100), midi.ParseMessage 2 (midi.NoteOn 0 61 100)]

/-- An iteration order for `twoNotesViewer`: note 60 before note 61. -/
def lowFirst (ch : Nat) : List Nat := if ch = 0 then [60, 61] else []

/-- Another iteration order for `twoNotesViewer`: note 61 before note 60. -/
def highFirst (ch : Nat) : List Nat := if ch = 0 then [61, 60] else []

end components

namespace midi

/-- A system-exclusive message (`0xF0`, the data, `0xF7`) as the probes report it:
only `GetSysEx` matches, and it carries no channel. -/
def SysEx (data : List Nat) : Message :=
  { Bytes := [240] ++ data ++ [247]
    GetNoteOn := none
    GetNoteOff := none
    GetControlChange := none
    GetProgramChange := none
    GetPitchBend := none
    GetPolyAfterTouch := none
    GetAfterTouch := none
    GetSysEx := some data
    GetChannel := none
    Is := fun _ => false }

end midi

namespace components

/-! ### The options modal -/

/-- The struct `optionsModalKeyMap`. -/
structure optionsModalKeyMap where
  Up : Binding
  Down : Binding
  Left : Binding
  Right : Binding
  Toggle : Binding
  Close : Binding
  Clear : Binding
  deriving DecidableEq, Repr

/-- The variable `optionsModalKeys`. -/
def optionsModalKeys : optionsModalKeyMap :=
  { Up := { keys := ["up", "k"] }
    Down := { keys := ["down", "j"] }
    Left := { keys := ["left", "h"] }
    Right := { keys := ["right", "l"] }
    Toggle := { keys := [" ", "enter"] }
    Close := { keys := ["o", "esc"] }
    Clear := { keys := ["c"] } }

/-- The type `optionsSection` with its four constants. -/
inductive optionsSection where
  | sectionChannels
  | sectionMessageTypes
  | sectionColumns
  | sectionSettings
  deriving DecidableEq, Repr

/-- OptionsModal: the state of the options modal. -/
structure OptionsModal where
  filter : models.Filter
  theme : theme.Theme
  width : Int
  height : Int
  cursor : Int
  currentSection : optionsSection
  messageTypes : List String
  columns : List String

/-- The command `Update` of the options modal returns besides `nil`: the one that
produces `CloseOptionsModalMsg` with the modal's filter. -/
inductive ModalCmd where
  | CloseOptionsModalMsg (Filter : models.Filter)

/-- The function `NewOptionsModal`. -/
def NewOptionsModal (filter : models.Filter) (t : theme.Theme) : OptionsModal :=
  { filter := filter
    theme := t
    currentSection := optionsSection.sectionChannels
    cursor := 0
    messageTypes :=
      ["Note On", "Note Off", "CC", "Program Change", "Pitch Bend", "Poly Aftertouch",
       "Aftertouch", "SysEx", "Clock", "Start", "Stop", "Continue"]
    columns := ["Time", "Chan", "Event", "Note", "Vel", "Ctrl", "Val"]
    width := 0
    height := 0 }

/-- The index expression `s[i]` on a slice; it panics unless `0 <= i < len(s)`. -/
def indexAt (s : List String) (i : Int) : Option String :=
  if 0 ≤ i ∧ i < (s.length : Int) then s.get? i.toNat else none

/-- The conversion `uint8(i)` of an `int`: the value modulo 256. -/
def toUint8 (i : Int) : Nat := (i % 256).toNat

namespace OptionsModal

/-- The method `Update` of the options modal.  The result is `none` when an index
expression panics. -/
def Update (o : OptionsModal) (msg : Msg) : Option (OptionsModal × Option ModalCmd) :=
  match msg with
  | Msg.WindowSizeMsg w h => some ({ o with width := w, height := h }, none)
  | Msg.KeyMsg k =>
    if Matches k optionsModalKeys.Up then
      if o.cursor > 0 then some ({ o with cursor := o.cursor - 1 }, none) else some (o, none)
    else if Matches k optionsModalKeys.Down then
      let maxCursor : Int :=
        match o.currentSection with
        | optionsSection.sectionChannels => 15
        | optionsSection.sectionMessageTypes => (o.messageTypes.length : Int) - 1
        | optionsSection.sectionColumns => (o.columns.length : Int) - 1
        | optionsSection.sectionSettings => 0
      if o.cursor < maxCursor then some ({ o with cursor := o.cursor + 1 }, none)
      else some (o, none)
    else if Matches k optionsModalKeys.Left then
      match o.currentSection with
      | optionsSection.sectionChannels => some (o, none)
      | optionsSection.sectionMessageTypes =>
        some ({ o with currentSection := optionsSection.sectionChannels, cursor := 0 }, none)
      | optionsSection.sectionColumns =>
        some ({ o with currentSection := optionsSection.sectionMessageTypes, cursor := 0 }, none)
      | optionsSection.sectionSettings =>
        some ({ o with currentSection := optionsSection.sectionColumns, cursor := 0 }, none)
    else if Matches k optionsModalKeys.Right then
      match o.currentSection with
      | optionsSection.sectionChannels =>
        some ({ o with currentSection := optionsSection.sectionMessageTypes, cursor := 0 }, none)
      | optionsSection.sectionMessageTypes =>
        some ({ o with currentSection := optionsSection.sectionColumns, cursor := 0 }, none)
      | optionsSection.sectionColumns =>
        some ({ o with currentSection := optionsSection.sectionSettings, cursor := 0 }, none)
      | optionsSection.sectionSettings => some (o, none)
    else if Matches k optionsModalKeys.Toggle then
      match o.currentSection with
      | optionsSection.sectionChannels =>
        some ({ o with filter := o.filter.ToggleChannel (toUint8 o.cursor) }, none)
      | optionsSection.sectionMessageTypes =>
        match indexAt o.messageTypes o.cursor with
        | some msgType => some ({ o with filter := o.filter.ToggleMessageType msgType }, none)
        | none => none
      | optionsSection.sectionColumns =>
        match indexAt o.columns o.cursor with
        | some col => some ({ o with filter := o.filter.ToggleColumn col }, none)
        | none => none
      | optionsSection.sectionSettings =>
        some ({ o with filter :=
          { o.filter with ShowMusicalNotes := !o.filter.ShowMusicalNotes } }, none)
    else if Matches k optionsModalKeys.Clear then
      some ({ o with filter := models.NewFilter }, none)
    else if Matches k optionsModalKeys.Close then
      some (o, some (ModalCmd.CloseOptionsModalMsg o.filter))
    else some (o, none)
  | _ => some (o, none)

/-- Specification side of the cursor invariant: the last index of the current
section. -/
def lastIndex (o : OptionsModal) : Int :=
  match o.currentSection with
  | optionsSection.sectionChannels => 15
  | optionsSection.sectionMessageTypes => (o.messageTypes.length : Int) - 1
  | optionsSection.sectionColumns => (o.columns.length : Int) - 1
  | optionsSection.sectionSettings => 0

end OptionsModal

/-- The modal after its `Update` has handled the messages of `msgs` in turn;
`none` if a step panics. -/
def runModal (o : OptionsModal) : List Msg → Option OptionsModal
  | [] => some o
  | msg :: rest =>
    match o.Update msg with
    | some (o1, _) => runModal o1 rest
    | none => none

end components

/-! ## Theorems -/

namespace components

open EventViewer

theorem isActive_noteStart (e : EventViewer) (ev : midi.Event) (ch key vel : Nat)
    (hk : ev.MessageType = "Note On") (hm : ev.Message.GetNoteOn = some (ch, key, vel))
    (hv : 0 < vel) (c k : Nat) :
    (e.updateActiveNotes ev).isActive c k = (e.isActive c k || (decide (c = ch) && decide (k = key))) := by
  unfold updateActiveNotes isActive
  simp only [hk, hm, if_true, gt_iff_lt, hv, GoMap.get?]
  cases hch : e.activeNotes ch <;> by_cases h1 : c = ch <;> by_cases h2 : k = key <;>
    simp [GoMap.set, GoMap.empty, h1, h2, hch]

theorem isActive_remove (e : EventViewer) (ch key : Nat) (c k : Nat) :
    (match e.activeNotes.get? ch with
      | none => e
      | some notes => { e with activeNotes := e.activeNotes.set ch (notes.delete key) }).isActive c k
      = (e.isActive c k && !(decide (c = ch) && decide (k = key))) := by
  unfold isActive
  simp only [GoMap.get?]
  cases hch : e.activeNotes ch <;> by_cases h1 : c = ch <;> by_cases h2 : k = key <;>
    simp [GoMap.set, GoMap.delete, h1, h2, hch]

theorem isActive_noteOnZero (e : EventViewer) (ev : midi.Event) (ch key : Nat)
    (hk : ev.MessageType = "Note On") (hm : ev.Message.GetNoteOn = some (ch, key, 0))
    (c k : Nat) :
    (e.updateActiveNotes ev).isActive c k = (e.isActive c k && !(decide (c = ch) && decide (k = key))) := by
  rw [← isActive_remove e ch key c k]
  unfold updateActiveNotes
  simp [hk, hm]

theorem isActive_noteOff (e : EventViewer) (ev : midi.Event) (ch key vel : Nat)
    (hk : ev.MessageType = "Note Off") (hm : ev.Message.GetNoteOff = some (ch, key, vel))
    (c k : Nat) :
    (e.updateActiveNotes ev).isActive c k = (e.isActive c k && !(decide (c = ch) && decide (k = key))) := by
  rw [← isActive_remove e ch key c k]
  unfold updateActiveNotes
  simp [hk, hm]

theorem updateActiveNotes_other (e : EventViewer) (ev : midi.Event)
    (h1 : ev.MessageType ≠ "Note On") (h2 : ev.MessageType ≠ "Note Off") :
    e.updateActiveNotes ev = e := by
  unfold updateActiveNotes
  simp [h1, h2]

theorem updateActiveNotes_noProbe_on (e : EventViewer) (ev : midi.Event)
    (hk : ev.MessageType = "Note On") (hm : ev.Message.GetNoteOn = none) :
    e.updateActiveNotes ev = e := by
  unfold updateActiveNotes
  simp [hk, hm]

theorem updateActiveNotes_noProbe_off (e : EventViewer) (ev : midi.Event)
    (hk : ev.MessageType = "Note Off") (hm : ev.Message.GetNoteOff = none) :
    e.updateActiveNotes ev = e := by
  unfold updateActiveNotes
  simp [hk, hm]

theorem isActive_step (e : EventViewer) (ev : midi.Event) (ch note : Nat) :
    (e.updateActiveNotes ev).isActive ch note =
      if isSignalFor ch note ev then isNoteStarted ev else e.isActive ch note := by
  have flip : ∀ a b : Nat, decide (a = b) = decide (b = a) :=
    fun a b => decide_eq_decide.mpr eq_comm
  by_cases hon : ev.MessageType = "Note On"
  · cases hm : ev.Message.GetNoteOn with
    | none =>
      rw [updateActiveNotes_noProbe_on e ev hon hm]
      simp [isSignalFor, hon, hm]
    | some p =>
      obtain ⟨c, k, v⟩ := p
      rcases Nat.eq_zero_or_pos v with hv | hv
      · subst hv
        rw [isActive_noteOnZero e ev c k hon hm, flip ch c, flip note k]
        by_cases h1 : c = ch <;> by_cases h2 : k = note <;>
          simp [isSignalFor, isNoteStarted, hon, hm, h1, h2]
      · rw [isActive_noteStart e ev c k v hon hm hv, flip ch c, flip note k]
        by_cases h1 : c = ch <;> by_cases h2 : k = note <;>
          simp [isSignalFor, isNoteStarted, hon, hm, h1, h2, hv]
  · by_cases hoff : ev.MessageType = "Note Off"
    · cases hm : ev.Message.GetNoteOff with
      | none =>
        rw [updateActiveNotes_noProbe_off e ev hoff hm]
        simp [isSignalFor, hoff, hm]
      | some p =>
        obtain ⟨c, k, v⟩ := p
        rw [isActive_noteOff e ev c k v hoff hm, flip ch c, flip note k]
        by_cases h1 : c = ch <;> by_cases h2 : k = note <;>
          simp [isSignalFor, isNoteStarted, hoff, hm, h1, h2]
    · rw [updateActiveNotes_other e ev hon hoff]
      simp [isSignalFor, hon, hoff]

theorem isActive_feed (evs : List midi.Event) (e : EventViewer) (ch note : Nat) :
    (feed e evs).isActive ch note =
      match lastSignalFor ch note evs with
      | some ev => isNoteStarted ev
      | none => e.isActive ch note := by
  induction evs using List.reverseRecOn with
  | nil => simp [feed, lastSignalFor]
  | append_singleton pre ev ih =>
    have hfeed : feed e (pre ++ [ev]) = (feed e pre).updateActiveNotes ev := by
      simp [feed, List.foldl_append]
    rw [hfeed, isActive_step, ih]
    unfold lastSignalFor
    rw [List.reverse_append]
    by_cases hs : isSignalFor ch note ev = true
    · simp [List.find?, hs]
    · simp [List.find?, hs]

theorem ParseMessage_MessageType (now : Nat) (msg : midi.Message) :
    (midi.ParseMessage now msg).MessageType = midi.getMessageType msg := by
  unfold midi.ParseMessage
  cases msg.GetChannel <;> rfl

theorem ParseMessage_Message (now : Nat) (msg : midi.Message) :
    (midi.ParseMessage now msg).Message = msg := by
  unfold midi.ParseMessage
  cases msg.GetChannel <;> rfl

theorem activeSet_insert (e e1 : EventViewer) (ch key : Nat)
    (h : ∀ c k, e1.isActive c k = (e.isActive c k || (decide (c = ch) && decide (k = key)))) :
    activeSet e1 = activeSet e ∪ {(ch, key)} := by
  ext ⟨c, k⟩
  simp only [activeSet, h, Set.mem_setOf_eq, Set.mem_union, Set.mem_diff, Set.mem_singleton_iff,
    Prod.mk.injEq, Bool.or_eq_true, Bool.and_eq_true, decide_eq_true_eq, Bool.not_eq_true',
    Bool.and_eq_false_imp, decide_eq_false_iff_not]

theorem activeSet_remove (e e1 : EventViewer) (ch key : Nat)
    (h : ∀ c k, e1.isActive c k = (e.isActive c k && !(decide (c = ch) && decide (k = key)))) :
    activeSet e1 = activeSet e \ {(ch, key)} := by
  ext ⟨c, k⟩
  simp only [activeSet, h, Set.mem_setOf_eq, Set.mem_union, Set.mem_diff, Set.mem_singleton_iff,
    Prod.mk.injEq, Bool.or_eq_true, Bool.and_eq_true, decide_eq_true_eq, Bool.not_eq_true',
    Bool.and_eq_false_imp, decide_eq_false_iff_not]
  tauto

/-- C1: for every viewer state and every parsed event, `updateActiveNotes`
changes the active-note set as follows: a Note On with velocity above zero on
(ch, key) gives the old set with (ch, key) added; a Note On with velocity zero
gives the old set without (ch, key); a Note Off, whatever its velocity, gives the
old set without (ch, key); an event of any other kind leaves the map as it is. -/
theorem updateActiveNotes_activeSet (e : EventViewer) (now : Nat) (msg : midi.Message) :
    (∀ ch key vel, (midi.ParseMessage now msg).MessageType = "Note On" →
        msg.GetNoteOn = some (ch, key, vel) → 0 < vel →
        activeSet (e.updateActiveNotes (midi.ParseMessage now msg)) = activeSet e ∪ {(ch, key)}) ∧
    (∀ ch key, (midi.ParseMessage now msg).MessageType = "Note On" →
        msg.GetNoteOn = some (ch, key, 0) →
        activeSet (e.updateActiveNotes (midi.ParseMessage now msg)) = activeSet e \ {(ch, key)}) ∧
    (∀ ch key vel, (midi.ParseMessage now msg).MessageType = "Note Off" →
        msg.GetNoteOff = some (ch, key, vel) →
        activeSet (e.updateActiveNotes (midi.ParseMessage now msg)) = activeSet e \ {(ch, key)}) ∧
    ((midi.ParseMessage now msg).MessageType ≠ "Note On" →
        (midi.ParseMessage now msg).MessageType ≠ "Note Off" →
        (e.updateActiveNotes (midi.ParseMessage now msg)).activeNotes = e.activeNotes) := by
  refine ⟨?_, ?_, ?_, ?_⟩
  · intro ch key vel hk hm hv
    apply activeSet_insert
    intro c k
    exact isActive_noteStart e _ ch key vel hk (by rw [ParseMessage_Message]; exact hm) hv c k
  · intro ch key hk hm
    apply activeSet_remove
    intro c k
    exact isActive_noteOnZero e _ ch key hk (by rw [ParseMessage_Message]; exact hm) c k
  · intro ch key vel hk hm
    apply activeSet_remove
    intro c k
    exact isActive_noteOff e _ ch key vel hk (by rw [ParseMessage_Message]; exact hm) c k
  · intro h1 h2
    rw [updateActiveNotes_other e _ h1 h2]

/-- Witness of C1 on a new viewer: Note On (0, 60, 100), Note On (0, 60, 0),
Note Off (0, 60, 0) and a control change. -/
theorem updateActiveNotes_activeSet_witness :
    (activeSet ((NewEventViewer ⟨"port", 0⟩ theme.Dark).updateActiveNotes
        (midi.ParseMessage 7 (midi.NoteOn 0 60 100)))
      = activeSet (NewEventViewer ⟨"port", 0⟩ theme.Dark) ∪ {(0, 60)}) ∧
    (activeSet ((NewEventViewer ⟨"port", 0⟩ theme.Dark).updateActiveNotes
        (midi.ParseMessage 7 (midi.NoteOn 0 60 0)))
      = activeSet (NewEventViewer ⟨"port", 0⟩ theme.Dark) \ {(0, 60)}) ∧
    (activeSet ((NewEventViewer ⟨"port", 0⟩ theme.Dark).updateActiveNotes
        (midi.ParseMessage 7 (midi.NoteOffVelocity 0 60 0)))
      = activeSet (NewEventViewer ⟨"port", 0⟩ theme.Dark) \ {(0, 60)}) ∧
    (((NewEventViewer ⟨"port", 0⟩ theme.Dark).updateActiveNotes
        (midi.ParseMessage 7 (midi.ControlChange 0 1 2))).activeNotes
      = (NewEventViewer ⟨"port", 0⟩ theme.Dark).activeNotes) :=
  ⟨(updateActiveNotes_activeSet _ 7 (midi.NoteOn 0 60 100)).1 0 60 100 rfl rfl (by decide),
   (updateActiveNotes_activeSet _ 7 (midi.NoteOn 0 60 0)).2.1 0 60 rfl rfl,
   (updateActiveNotes_activeSet _ 7 (midi.NoteOffVelocity 0 60 0)).2.2.1 0 60 0 rfl rfl,
   (updateActiveNotes_activeSet _ 7 (midi.ControlChange 0 1 2)).2.2.2 (by decide) (by decide)⟩

/-- C2: for every finite sequence of events fed to `updateActiveNotes` from the
empty state of `NewEventViewer`, and every key (ch, note): the key is in the
active-note map at the end if and only if the sequence has a note on/off signal
for that key and the last such signal is a Note On with velocity above zero. -/
theorem feed_isActive_iff_lastSignal (device : midi.Device) (t : theme.Theme)
    (evs : List midi.Event) (ch note : Nat) :
    (feed (NewEventViewer device t) evs).isActive ch note = true ↔
      ∃ ev, lastSignalFor ch note evs = some ev ∧ isNoteStarted ev = true := by
  rw [isActive_feed]
  cases h : lastSignalFor ch note evs with
  | none => simp [NewEventViewer, EventViewer.isActive, GoMap.get?, GoMap.empty]
  | some ev => simp

theorem getMessageType_noteOn (msg : midi.Message) (p : Nat × Nat × Nat)
    (h : msg.GetNoteOn = some p) : midi.getMessageType msg = "Note On" := by
  simp [midi.getMessageType, h]

theorem getMessageType_noteOff (msg : midi.Message) (p : Nat × Nat × Nat)
    (h1 : msg.GetNoteOn = none) (h2 : msg.GetNoteOff = some p) :
    midi.getMessageType msg = "Note Off" := by
  simp [midi.getMessageType, h1, h2]

theorem updateActiveNotes_started (e : EventViewer) (now : Nat) (msg : midi.Message)
    (ch key vel : Nat) (h : msg.GetNoteOn = some (ch, key, vel)) (hv : 0 < vel) :
    (e.updateActiveNotes (midi.ParseMessage now msg)).activeNotes =
      e.activeNotes.set ch (((e.activeNotes.get? ch).getD GoMap.empty).set key true) := by
  unfold updateActiveNotes
  rw [ParseMessage_MessageType, ParseMessage_Message, getMessageType_noteOn msg _ h, h]
  simp only [if_true, gt_iff_lt, hv]
  cases e.activeNotes.get? ch <;> rfl

theorem updateActiveNotes_stopped_on (e : EventViewer) (now : Nat) (msg : midi.Message)
    (ch key : Nat) (h : msg.GetNoteOn = some (ch, key, 0)) (notes : GoMap Nat Bool)
    (hn : e.activeNotes.get? ch = some notes) :
    (e.updateActiveNotes (midi.ParseMessage now msg)).activeNotes =
      e.activeNotes.set ch (notes.delete key) := by
  unfold updateActiveNotes
  rw [ParseMessage_MessageType, ParseMessage_Message, getMessageType_noteOn msg _ h, h]
  simp [hn]

theorem updateActiveNotes_stopped_off (e : EventViewer) (now : Nat) (msg : midi.Message)
    (ch key vel : Nat) (h1 : msg.GetNoteOn = none) (h2 : msg.GetNoteOff = some (ch, key, vel))
    (notes : GoMap Nat Bool) (hn : e.activeNotes.get? ch = some notes) :
    (e.updateActiveNotes (midi.ParseMessage now msg)).activeNotes =
      e.activeNotes.set ch (notes.delete key) := by
  unfold updateActiveNotes
  rw [ParseMessage_MessageType, ParseMessage_Message, getMessageType_noteOff msg _ h1 h2, h2]
  simp [hn]

/-- C3: for every viewer state, channel ch and note n: a Note On (ch, n, 64)
followed by a Note Off (ch, n) leaves (ch, n) out of the active-note map, and a
Note On (ch, n, 64) followed by a Note On (ch, n, 0) gives the identical
active-note map. -/
theorem noteOff_encodings_equivalent (e : EventViewer) (ch n vel : Nat)
    (t1 t2 t3 t4 : Nat) (mOn mOff mZero : midi.Message)
    (hOn : mOn.GetNoteOn = some (ch, n, 64))
    (hOff1 : mOff.GetNoteOn = none) (hOff2 : mOff.GetNoteOff = some (ch, n, vel))
    (hZero : mZero.GetNoteOn = some (ch, n, 0)) :
    ((e.updateActiveNotes (midi.ParseMessage t1 mOn)).updateActiveNotes
        (midi.ParseMessage t2 mOff)).isActive ch n = false ∧
    ((e.updateActiveNotes (midi.ParseMessage t3 mOn)).updateActiveNotes
        (midi.ParseMessage t4 mZero)).isActive ch n = false ∧
    ((e.updateActiveNotes (midi.ParseMessage t3 mOn)).updateActiveNotes
        (midi.ParseMessage t4 mZero)).activeNotes =
      ((e.updateActiveNotes (midi.ParseMessage t1 mOn)).updateActiveNotes
        (midi.ParseMessage t2 mOff)).activeNotes := by
  have s1 := updateActiveNotes_started e t1 mOn ch n 64 hOn (by decide)
  have s3 := updateActiveNotes_started e t3 mOn ch n 64 hOn (by decide)
  have g1 : (e.updateActiveNotes (midi.ParseMessage t1 mOn)).activeNotes.get? ch
      = some (((e.activeNotes.get? ch).getD GoMap.empty).set n true) := by
    rw [s1]; simp [GoMap.get?, GoMap.set]
  have g3 : (e.updateActiveNotes (midi.ParseMessage t3 mOn)).activeNotes.get? ch
      = some (((e.activeNotes.get? ch).getD GoMap.empty).set n true) := by
    rw [s3]; simp [GoMap.get?, GoMap.set]
  have r1 := updateActiveNotes_stopped_off _ t2 mOff ch n vel hOff1 hOff2 _ g1
  have r3 := updateActiveNotes_stopped_on _ t4 mZero ch n hZero _ g3
  refine ⟨?_, ?_, ?_⟩
  · simp [EventViewer.isActive, r1, GoMap.get?, GoMap.set, GoMap.delete]
  · simp [EventViewer.isActive, r3, GoMap.get?, GoMap.set, GoMap.delete]
  · rw [r1, r3, s1, s3]

/-- Witness of C3: channel 2, note 60, on a viewer that already holds (2, 61). -/
theorem noteOff_encodings_equivalent_witness :
    ((((NewEventViewer ⟨"port", 0⟩ theme.Dark).updateActiveNotes
          (midi.ParseMessage 1 (midi.NoteOn 2 61 90))).updateActiveNotes
        (midi.ParseMessage 2 (midi.NoteOn 2 60 64))).updateActiveNotes
        (midi.ParseMessage 3 (midi.NoteOffVelocity 2 60 0))).isActive 2 60 = false ∧
    ((((NewEventViewer ⟨"port", 0⟩ theme.Dark).updateActiveNotes
          (midi.ParseMessage 1 (midi.NoteOn 2 61 90))).updateActiveNotes
        (midi.ParseMessage 4 (midi.NoteOn 2 60 64))).updateActiveNotes
        (midi.ParseMessage 5 (midi.NoteOn 2 60 0))).isActive 2 60 = false ∧
    ((((NewEventViewer ⟨"port", 0⟩ theme.Dark).updateActiveNotes
          (midi.ParseMessage 1 (midi.NoteOn 2 61 90))).updateActiveNotes
        (midi.ParseMessage 4 (midi.NoteOn 2 60 64))).updateActiveNotes
        (midi.ParseMessage 5 (midi.NoteOn 2 60 0))).activeNotes =
      ((((NewEventViewer ⟨"port", 0⟩ theme.Dark).updateActiveNotes
          (midi.ParseMessage 1 (midi.NoteOn 2 61 90))).updateActiveNotes
        (midi.ParseMessage 2 (midi.NoteOn 2 60 64))).updateActiveNotes
        (midi.ParseMessage 3 (midi.NoteOffVelocity 2 60 0))).activeNotes :=
  noteOff_encodings_equivalent _ 2 60 0 2 3 4 5 (midi.NoteOn 2 60 64)
    (midi.NoteOffVelocity 2 60 0) (midi.NoteOn 2 60 0) rfl rfl rfl rfl

end components

namespace models

/-- C4: for every filter and every event, `ShouldShow` is true if and only if the
event's channel is not hidden and its message type is not hidden (the lookups
`HiddenChannels[Channel]` and `HiddenMessageTypes[MessageType]` are both false);
the result is the same for any hidden columns, any `ShowMusicalNotes` and any
other fields of the event. -/
theorem ShouldShow_iff_visible (f : Filter) (event : midi.Event) :
    (f.ShouldShow event = true ↔
      f.HiddenChannels.getBool event.Channel = false ∧
      f.HiddenMessageTypes.getBool event.MessageType = false) ∧
    (f.ShouldShow event = true ↔
      f.IsChannelVisible event.Channel = true ∧
      f.IsMessageTypeVisible event.MessageType = true) ∧
    (∀ (columns : GoMap String Bool) (notes : Bool) (ts : Nat) (msg : midi.Message)
        (data : String) (raw : List Nat),
      Filter.ShouldShow { f with HiddenColumns := columns, ShowMusicalNotes := notes }
          { event with Timestamp := ts, Message := msg, Data := data, RawBytes := raw }
        = f.ShouldShow event) := by
  refine ⟨?_, ?_, ?_⟩
  · unfold Filter.ShouldShow
    cases f.HiddenChannels.getBool event.Channel <;>
      cases f.HiddenMessageTypes.getBool event.MessageType <;> simp
  · unfold Filter.ShouldShow Filter.IsChannelVisible Filter.IsMessageTypeVisible
    cases f.HiddenChannels.getBool event.Channel <;>
      cases f.HiddenMessageTypes.getBool event.MessageType <;> simp
  · intro columns notes ts msg data raw
    rfl

end models

namespace components

open EventViewer

theorem updateActiveNotes_frame (e : EventViewer) (ev : midi.Event) :
    e.updateActiveNotes ev = { e with activeNotes := (e.updateActiveNotes ev).activeNotes } := by
  unfold updateActiveNotes
  repeat' split
  all_goals rfl

theorem updateActiveNotes_events (e : EventViewer) (ev : midi.Event) :
    (e.updateActiveNotes ev).events = e.events := by
  rw [updateActiveNotes_frame]

theorem updateActiveNotes_maxEvents (e : EventViewer) (ev : midi.Event) :
    (e.updateActiveNotes ev).maxEvents = e.maxEvents := by
  rw [updateActiveNotes_frame]

theorem updateActiveNotes_filter (e : EventViewer) (ev : midi.Event) :
    (e.updateActiveNotes ev).filter = e.filter := by
  rw [updateActiveNotes_frame]

theorem updateActiveNotes_paused (e : EventViewer) (ev : midi.Event) :
    (e.updateActiveNotes ev).paused = e.paused := by
  rw [updateActiveNotes_frame]

theorem Update_midi_rejected (e : EventViewer) (now : Nat) (m : midi.Message)
    (hp : e.paused = false) (hr : e.filter.ShouldShow (midi.ParseMessage now m) = false) :
    e.Update now (Msg.MIDIEventMsg m) = some (e.updateActiveNotes (midi.ParseMessage now m), none) := by
  simp [Update, hp, updateActiveNotes_filter, hr]

theorem Update_midi_accepted (e : EventViewer) (now : Nat) (m : midi.Message)
    (hp : e.paused = false) (ha : e.filter.ShouldShow (midi.ParseMessage now m) = true)
    (hmax : 0 ≤ e.maxEvents) :
    e.Update now (Msg.MIDIEventMsg m) =
      some ({ e.updateActiveNotes (midi.ParseMessage now m) with
                events := (e.events ++ [midi.ParseMessage now m]).drop
                  (e.events.length + 1 - e.maxEvents.toNat) }, none) := by
  simp only [Update, hp, updateActiveNotes_filter, ha, updateActiveNotes_events,
    updateActiveNotes_maxEvents, Bool.not_false, if_true, List.length_append,
    List.length_singleton]
  split
  · rename_i hgt
    have hlow : (0 : Int) ≤ ((e.events.length + 1 : Nat) : Int) - e.maxEvents ∧
        ((e.events.length + 1 : Nat) : Int) - e.maxEvents ≤ ((e.events.length + 1 : Nat) : Int) := by
      constructor <;> omega
    have htn : (((e.events.length + 1 : Nat) : Int) - e.maxEvents).toNat
        = e.events.length + 1 - e.maxEvents.toNat := by omega
    simp only [sliceFrom, List.length_append, List.length_singleton, hlow, and_self, if_true, htn]
  · rename_i hle
    have h0 : e.events.length + 1 - e.maxEvents.toNat = 0 := by omega
    rw [h0, List.drop_zero]

theorem Update_preserves_bound (e : EventViewer) (now : Nat) (msg : Msg)
    (hlen : (e.events.length : Int) ≤ e.maxEvents) (hmax : e.maxEvents = 1000) :
    ∃ e1 c, e.Update now msg = some (e1, c) ∧
      (e1.events.length : Int) ≤ e1.maxEvents ∧ e1.maxEvents = 1000 := by
  cases msg with
  | WindowSizeMsg w h => exact ⟨_, _, rfl, hlen, hmax⟩
  | MIDIEventMsg m =>
    cases hp : e.paused with
    | true => exact ⟨e, none, by simp [Update, hp], hlen, hmax⟩
    | false =>
      cases ha : e.filter.ShouldShow (midi.ParseMessage now m) with
      | false =>
        refine ⟨_, _, Update_midi_rejected e now m hp ha, ?_, ?_⟩
        · rw [updateActiveNotes_events, updateActiveNotes_maxEvents]; exact hlen
        · rw [updateActiveNotes_maxEvents]; exact hmax
      | true =>
        refine ⟨_, _, Update_midi_accepted e now m hp ha (by omega), ?_, ?_⟩
        · simp only [List.length_drop, List.length_append, List.length_singleton,
            updateActiveNotes_maxEvents]
          omega
        · simp only [updateActiveNotes_maxEvents]; exact hmax
  | KeyMsg k =>
    unfold Update
    simp only
    split
    · exact ⟨_, _, rfl, hlen, hmax⟩
    · split
      · exact ⟨_, _, rfl, hlen, hmax⟩
      · split
        · exact ⟨_, _, rfl, hlen, hmax⟩
        · split
          · refine ⟨_, _, rfl, ?_, hmax⟩
            simp only [List.length_nil]
            omega
          · split
            · exact ⟨_, _, rfl, hlen, hmax⟩
            · exact ⟨_, _, rfl, hlen, hmax⟩
  | FilterUpdatedMsg f => exact ⟨_, _, rfl, hlen, hmax⟩
  | OtherMsg => exact ⟨_, _, rfl, hlen, hmax⟩

theorem runUpdates_preserves_bound (msgs : List (Nat × Msg)) (e : EventViewer)
    (hlen : (e.events.length : Int) ≤ e.maxEvents) (hmax : e.maxEvents = 1000) :
    ∃ e1, runUpdates e msgs = some e1 ∧
      (e1.events.length : Int) ≤ e1.maxEvents ∧ e1.maxEvents = 1000 := by
  induction msgs generalizing e with
  | nil => exact ⟨e, rfl, hlen, hmax⟩
  | cons p rest ih =>
    obtain ⟨now, msg⟩ := p
    obtain ⟨e1, c, hu, h1, h2⟩ := Update_preserves_bound e now msg hlen hmax
    obtain ⟨e2, hr, h3, h4⟩ := ih e1 h1 h2
    exact ⟨e2, by simp [runUpdates, hu, hr], h3, h4⟩

/-- C5: for every sequence of messages (MIDI events, key presses, filter updates,
window resizes, others) handled by `Update` from `NewEventViewer`, after every
step (every prefix of the sequence) `Update` has returned, the log holds at most
`maxEvents` events, and `maxEvents` is still 1000. -/
theorem events_length_le_maxEvents (device : midi.Device) (t : theme.Theme)
    (msgs : List (Nat × Msg)) (n : Nat) :
    ∃ e, runUpdates (NewEventViewer device t) (msgs.take n) = some e ∧
      (e.events.length : Int) ≤ e.maxEvents ∧ e.maxEvents = 1000 :=
  runUpdates_preserves_bound (msgs.take n) (NewEventViewer device t)
    (by simp [NewEventViewer]) rfl

theorem lastEntries_eq_drop {α : Type} (n : Nat) (l : List α) :
    lastEntries n l = l.drop (l.length - n) := by
  unfold lastEntries
  rw [List.take_reverse, List.reverse_reverse]

theorem runUpdates_midi_accepted (msgs : List (Nat × midi.Message)) (e : EventViewer)
    (hp : e.paused = false) (hmax : e.maxEvents = 1000) (hlen : e.events.length ≤ 1000)
    (hacc : ∀ p ∈ msgs, e.filter.ShouldShow (midi.ParseMessage p.1 p.2) = true) :
    ∃ e1, runUpdates e (midiMsgs msgs) = some e1 ∧
      e1.events = (e.events ++ parseAll msgs).drop (e.events.length + msgs.length - 1000) := by
  induction msgs generalizing e with
  | nil =>
    refine ⟨e, rfl, ?_⟩
    have h0 : e.events.length + ([] : List (Nat × midi.Message)).length - 1000 = 0 := by
      simp only [List.length_nil]; omega
    rw [h0]
    simp [parseAll]
  | cons p rest ih =>
    obtain ⟨now, m⟩ := p
    have ha : e.filter.ShouldShow (midi.ParseMessage now m) = true :=
      hacc (now, m) (List.mem_cons_self _ _)
    have hu := Update_midi_accepted e now m hp ha (by omega)
    have hmt : e.maxEvents.toNat = 1000 := by omega
    rw [hmt] at hu
    have hl1 : ((e.events ++ [midi.ParseMessage now m]).drop (e.events.length + 1 - 1000)).length
        = e.events.length + 1 - (e.events.length + 1 - 1000) := by
      simp only [List.length_drop, List.length_append, List.length_singleton]
    obtain ⟨e2, hr, hev⟩ := ih
      { e.updateActiveNotes (midi.ParseMessage now m) with
          events := (e.events ++ [midi.ParseMessage now m]).drop (e.events.length + 1 - 1000) }
      (by simp only [updateActiveNotes_paused]; exact hp)
      (by simp only [updateActiveNotes_maxEvents]; exact hmax)
      (by simp only [hl1]; omega)
      (by
        intro q hq
        simp only [updateActiveNotes_filter]
        exact hacc q (List.mem_cons_of_mem _ hq))
    refine ⟨e2, ?_, ?_⟩
    · simp only [midiMsgs, List.map_cons, runUpdates, hu]
      exact hr
    · rw [hev]
      simp only [hl1]
      rw [← List.drop_append_of_le_length (by
        simp only [List.length_append, List.length_singleton]; omega), List.drop_drop]
      simp only [parseAll, List.map_cons, List.append_assoc, List.singleton_append,
        List.length_cons]
      have harith : e.events.length + 1 - 1000 +
          (e.events.length + 1 - (e.events.length + 1 - 1000) + rest.length - 1000)
          = e.events.length + (rest.length + 1) - 1000 := by omega
      rw [harith]

/-- C6: for every sequence of k MIDI messages that the filter accepts, fed one by
one to an unpaused viewer with an empty log and capacity 1000, `Update` returns
at every step and the log afterwards is exactly the last min(k, 1000) of the
parsed events in arrival order, so it holds min(k, 1000) events. -/
theorem events_eq_last_accepted (e : EventViewer) (msgs : List (Nat × midi.Message))
    (hp : e.paused = false) (hempty : e.events = []) (hmax : e.maxEvents = 1000)
    (hacc : ∀ p ∈ msgs, e.filter.ShouldShow (midi.ParseMessage p.1 p.2) = true) :
    ∃ e1, runUpdates e (midiMsgs msgs) = some e1 ∧
      e1.events = lastEntries (min msgs.length 1000) (parseAll msgs) ∧
      e1.events.length = min msgs.length 1000 := by
  obtain ⟨e1, hr, hev⟩ := runUpdates_midi_accepted msgs e hp hmax (by simp [hempty]) hacc
  have hev1 : e1.events = lastEntries (min msgs.length 1000) (parseAll msgs) := by
    rw [hev, lastEntries_eq_drop, hempty]
    simp only [List.nil_append, List.length_nil, Nat.zero_add, parseAll, List.length_map]
    have harith : msgs.length - 1000 = msgs.length - min msgs.length 1000 := by omega
    rw [harith]
  refine ⟨e1, hr, hev1, ?_⟩
  rw [hev1, lastEntries_eq_drop]
  simp only [List.length_drop, parseAll, List.length_map]
  omega

/-- Witness of C6: three accepted messages on a new viewer. -/
theorem events_eq_last_accepted_witness :
    ∃ e1, runUpdates (NewEventViewer ⟨"port", 0⟩ theme.Dark)
        (midiMsgs [(1, midi.NoteOn 0 60 100), (2, midi.NoteOffVelocity 0 60 0),
          (3, midi.ControlChange 1 7 127)]) = some e1 ∧
      e1.events = lastEntries (min 3 1000)
        (parseAll [(1, midi.NoteOn 0 60 100), (2, midi.NoteOffVelocity 0 60 0),
          (3, midi.ControlChange 1 7 127)]) ∧
      e1.events.length = min 3 1000 :=
  events_eq_last_accepted (NewEventViewer ⟨"port", 0⟩ theme.Dark)
    [(1, midi.NoteOn 0 60 100), (2, midi.NoteOffVelocity 0 60 0), (3, midi.ControlChange 1 7 127)]
    rfl rfl rfl (by decide)

theorem updateActiveNotes_activeNotes_congr (e e0 : EventViewer) (ev : midi.Event)
    (h : e0.activeNotes = e.activeNotes) :
    (e0.updateActiveNotes ev).activeNotes = (e.updateActiveNotes ev).activeNotes := by
  unfold updateActiveNotes
  rw [h]
  repeat' split
  all_goals first | rfl | exact h

/-- C7: for every unpaused viewer and every incoming MIDI message whose parsed
event the filter rejects, `Update` returns with the event log unchanged and with
the active-note map that `updateActiveNotes` gives for the event; and with any
other filter in place of the viewer's (one that accepts the event included),
`Update` returns the same active-note map, provided the capacity is not
negative. -/
theorem Update_rejected_still_tracked (e : EventViewer) (now : Nat) (m : midi.Message)
    (hp : e.paused = false) (hr : e.filter.ShouldShow (midi.ParseMessage now m) = false) :
    ∃ e1, e.Update now (Msg.MIDIEventMsg m) = some (e1, none) ∧
      e1.events = e.events ∧
      e1.activeNotes = (e.updateActiveNotes (midi.ParseMessage now m)).activeNotes ∧
      (∀ f : models.Filter, 0 ≤ e.maxEvents →
        ∃ e2, EventViewer.Update { e with filter := f } now (Msg.MIDIEventMsg m) = some (e2, none) ∧
          e2.activeNotes = e1.activeNotes) := by
  refine ⟨_, Update_midi_rejected e now m hp hr, updateActiveNotes_events e _, rfl, ?_⟩
  intro f hmax
  cases ha : f.ShouldShow (midi.ParseMessage now m) with
  | false =>
    exact ⟨_, Update_midi_rejected { e with filter := f } now m hp ha,
      updateActiveNotes_activeNotes_congr e _ _ rfl⟩
  | true =>
    exact ⟨_, Update_midi_accepted { e with filter := f } now m hp ha hmax,
      updateActiveNotes_activeNotes_congr e _ _ rfl⟩

/-- Witness of C7: channel 0 is hidden and a Note On (0, 60, 100) arrives; the
log stays empty and the note (0, 60) is in the active-note map afterwards. -/
theorem Update_rejected_still_tracked_witness :
    (∃ e1, EventViewer.Update
        { NewEventViewer ⟨"port", 0⟩ theme.Dark with filter := models.NewFilter.ToggleChannel 0 }
        5 (Msg.MIDIEventMsg (midi.NoteOn 0 60 100)) = some (e1, none) ∧
      e1.events = [] ∧
      e1.activeNotes = (EventViewer.updateActiveNotes
        { NewEventViewer ⟨"port", 0⟩ theme.Dark with filter := models.NewFilter.ToggleChannel 0 }
        (midi.ParseMessage 5 (midi.NoteOn 0 60 100))).activeNotes ∧
      (∀ f : models.Filter, (0 : Int) ≤ 1000 →
        ∃ e2, EventViewer.Update
            { NewEventViewer ⟨"port", 0⟩ theme.Dark with filter := f }
            5 (Msg.MIDIEventMsg (midi.NoteOn 0 60 100)) = some (e2, none) ∧
          e2.activeNotes = e1.activeNotes)) ∧
    (EventViewer.updateActiveNotes
        { NewEventViewer ⟨"port", 0⟩ theme.Dark with filter := models.NewFilter.ToggleChannel 0 }
        (midi.ParseMessage 5 (midi.NoteOn 0 60 100))).isActive 0 60 = true :=
  ⟨Update_rejected_still_tracked
      { NewEventViewer ⟨"port", 0⟩ theme.Dark with filter := models.NewFilter.ToggleChannel 0 }
      5 (midi.NoteOn 0 60 100) rfl (by decide),
    by decide⟩

end components

namespace midi

theorem getMessageType_eq_firstMatch (msg : Message) :
    getMessageType msg = firstMatch probes msg := rfl

theorem firstMatch_mem (ps : List (String × (Message → Bool))) (msg : Message) :
    firstMatch ps msg ∈ ps.map Prod.fst ++ ["Unknown"] := by
  induction ps with
  | nil => simp [firstMatch]
  | cons p rest ih =>
    unfold firstMatch
    split
    · simp
    · simp only [List.map_cons, List.cons_append, List.mem_cons]
      exact Or.inr ih

theorem firstMatch_eq_unknown_iff (ps : List (String × (Message → Bool))) (msg : Message)
    (hu : "Unknown" ∉ ps.map Prod.fst) :
    firstMatch ps msg = "Unknown" ↔ ∀ p ∈ ps, p.2 msg = false := by
  induction ps with
  | nil => simp [firstMatch]
  | cons p rest ih =>
    simp only [List.map_cons, List.mem_cons, not_or] at hu
    unfold firstMatch
    cases hp : p.2 msg with
    | true =>
      simp only [if_true, List.mem_cons, forall_eq_or_imp, hp]
      constructor
      · intro h; exact absurd h.symm hu.1
      · intro h; exact absurd h.1 (by decide)
    | false =>
      simp only [Bool.false_eq_true, if_false, List.mem_cons, forall_eq_or_imp, hp, true_and]
      exact ih hu.2

theorem firstMatch_eq_label_iff (ps : List (String × (Message → Bool))) (msg : Message)
    (hu : "Unknown" ∉ ps.map Prod.fst) (hnd : (ps.map Prod.fst).Nodup)
    (i : Nat) (hi : i < ps.length) :
    firstMatch ps msg = (ps.get ⟨i, hi⟩).1 ↔
      (ps.get ⟨i, hi⟩).2 msg = true ∧
      ∀ j (hj : j < i), (ps.get ⟨j, Nat.lt_trans hj hi⟩).2 msg = false := by
  induction ps generalizing i with
  | nil => exact absurd hi (Nat.not_lt_zero _)
  | cons p rest ih =>
    simp only [List.map_cons, List.mem_cons, not_or] at hu
    simp only [List.map_cons, List.nodup_cons] at hnd
    cases i with
    | zero =>
      simp only [List.get_eq_getElem, List.getElem_cons_zero, Nat.not_lt_zero, forall_false,
        implies_true, and_true]
      unfold firstMatch
      cases hp : p.2 msg with
      | true => simp
      | false =>
        simp only [Bool.false_eq_true, if_false, iff_false]
        intro h
        have hm := firstMatch_mem rest msg
        rw [h] at hm
        simp only [List.mem_append, List.mem_singleton] at hm
        rcases hm with hm | hm
        · exact hnd.1 hm
        · exact hu.1 hm.symm
    | succ k =>
      have hk : k < rest.length := Nat.lt_of_succ_lt_succ hi
      have hne : p.1 ≠ (rest.get ⟨k, hk⟩).1 := by
        intro h
        apply hnd.1
        rw [h]
        exact List.mem_map_of_mem Prod.fst (List.get_mem rest k hk)
      have ihk := ih hu.2 hnd.2 k hk
      simp only [List.get_eq_getElem, List.getElem_cons_succ] at ihk ⊢
      unfold firstMatch
      cases hp : p.2 msg with
      | true =>
        simp only [if_true]
        constructor
        · intro h; exact absurd h hne
        · intro h
          have h0 := h.2 0 (Nat.succ_pos k)
          simp only [List.getElem_cons_zero] at h0
          rw [hp] at h0
          exact absurd h0 (by decide)
      | false =>
        simp only [Bool.false_eq_true, if_false]
        rw [ihk]
        constructor
        · intro h
          refine ⟨h.1, ?_⟩
          intro j hj
          cases j with
          | zero => simpa using hp
          | succ j0 =>
            simp only [List.getElem_cons_succ]
            exact h.2 j0 (Nat.lt_of_succ_lt_succ hj)
        · intro h
          refine ⟨h.1, ?_⟩
          intro j hj
          have := h.2 (j + 1) (Nat.succ_lt_succ hj)
          simpa using this

theorem probes_labels_nodup : (probes.map Prod.fst).Nodup := by decide

theorem unknown_not_probe_label : "Unknown" ∉ probes.map Prod.fst := by decide

theorem isSome_eq_false_iff_none {α : Type} (o : Option α) : o.isSome = false ↔ o = none := by
  cases o <;> simp

/-- C8: for every message, `getMessageType` returns one of the fifteen fixed
labels, and it returns "Unknown" if and only if none of the fourteen probes
matches the message. -/
theorem getMessageType_mem_labels (msg : Message) :
    getMessageType msg ∈ labels ∧
    (getMessageType msg = "Unknown" ↔
      msg.GetNoteOn = none ∧ msg.GetNoteOff = none ∧ msg.GetControlChange = none ∧
      msg.GetProgramChange = none ∧ msg.GetPitchBend = none ∧ msg.GetPolyAfterTouch = none ∧
      msg.GetAfterTouch = none ∧ msg.GetSysEx = none ∧
      msg.Is Type_.TimingClockMsg = false ∧ msg.Is Type_.StartMsg = false ∧
      msg.Is Type_.StopMsg = false ∧ msg.Is Type_.ContinueMsg = false ∧
      msg.Is Type_.ActiveSenseMsg = false ∧ msg.Is Type_.ResetMsg = false) := by
  constructor
  · rw [getMessageType_eq_firstMatch]
    exact firstMatch_mem probes msg
  · rw [getMessageType_eq_firstMatch, firstMatch_eq_unknown_iff probes msg unknown_not_probe_label]
    simp only [probes, List.mem_cons, List.mem_singleton, forall_eq_or_imp, forall_eq,
      List.not_mem_nil, false_imp_iff, implies_true, and_true, isSome_eq_false_iff_none]

/-- C9: for every message and every position i in the fixed probe order (Note On,
Note Off, CC, Program Change, Pitch Bend, Poly Aftertouch, Aftertouch, SysEx,
Clock, Start, Stop, Continue, Active Sense, Reset), `getMessageType` returns the
label of the i-th kind if and only if the i-th probe matches and no probe earlier
in the order matches. -/
theorem getMessageType_first_match (msg : Message) (i : Nat) (hi : i < probes.length) :
    getMessageType msg = (probes.get ⟨i, hi⟩).1 ↔
      (probes.get ⟨i, hi⟩).2 msg = true ∧
      ∀ j (hj : j < i), (probes.get ⟨j, Nat.lt_trans hj hi⟩).2 msg = false := by
  rw [getMessageType_eq_firstMatch]
  exact firstMatch_eq_label_iff probes msg unknown_not_probe_label probes_labels_nodup i hi

/-- Witness of C9: the second kind (Note Off) on a note-off message, which the
code labels "Note Off". -/
theorem getMessageType_first_match_witness :
    (getMessageType (NoteOffVelocity 3 60 0) = (probes.get ⟨1, by decide⟩).1 ↔
      (probes.get ⟨1, by decide⟩).2 (NoteOffVelocity 3 60 0) = true ∧
      ∀ j (hj : j < 1), (probes.get ⟨j, Nat.lt_trans hj (by decide)⟩).2
        (NoteOffVelocity 3 60 0) = false) ∧
    getMessageType (NoteOffVelocity 3 60 0) = "Note Off" :=
  ⟨getMessageType_first_match (NoteOffVelocity 3 60 0) 1 (by decide), by decide⟩

/-- C10: for every note number n (those from 0 to 127 in particular),
`NoteToName n` is the entry n mod 12 of the pitch classes C, C#, D, D#, E, F, F#,
G, G#, A, A#, B followed by the decimal rendering of floor(n / 12) - 1; and 0
gives "C-1", 12 gives "C0", 60 gives "C4", 61 gives "C#4", 127 gives "G9". -/
theorem NoteToName_table (n : Nat) :
    (∃ pc, pitchClasses.get? (n % 12) = some pc ∧
      NoteToName n = pc ++ toString (⌊(n : ℚ) / 12⌋ - 1)) ∧
    NoteToName 0 = "C-1" ∧ NoteToName 12 = "C0" ∧ NoteToName 60 = "C4" ∧
    NoteToName 61 = "C#4" ∧ NoteToName 127 = "G9" := by
  refine ⟨⟨noteNames.get ⟨n % 12, Nat.mod_lt n (by decide)⟩, ?_, ?_⟩,
    by decide, by decide, by decide, by decide, by decide⟩
  · have h : pitchClasses = noteNames := rfl
    rw [h, List.get?_eq_get]
  · have hfloor : ⌊(n : ℚ) / 12⌋ = ((n / 12 : Nat) : Int) := by
      have := Rat.floor_natCast_div_natCast n 12
      simpa using this
    rw [hfloor]
    rfl

end midi

namespace models

open Filter

theorem getBool_set_true {K : Type} [DecidableEq K] (m : GoMap K Bool) (k x : K) :
    (m.set k true).getBool x = (decide (x = k) || m.getBool x) := by
  unfold GoMap.set GoMap.getBool
  by_cases h : x = k <;> simp [h]

theorem getBool_delete {K : Type} [DecidableEq K] (m : GoMap K Bool) (k x : K) :
    (m.delete k).getBool x = (!decide (x = k) && m.getBool x) := by
  unfold GoMap.delete GoMap.getBool
  by_cases h : x = k <;> simp [h]

theorem IsChannelVisible_ToggleChannel (f : Filter) (c d : Nat) :
    (f.ToggleChannel c).IsChannelVisible d =
      if d = c then !f.IsChannelVisible c else f.IsChannelVisible d := by
  unfold ToggleChannel IsChannelVisible
  cases h : f.HiddenChannels.getBool c <;> by_cases hd : d = c <;>
    simp [getBool_set_true, getBool_delete, hd, h]

theorem IsMessageTypeVisible_ToggleMessageType (f : Filter) (t u : String) :
    (f.ToggleMessageType t).IsMessageTypeVisible u =
      if u = t then !f.IsMessageTypeVisible t else f.IsMessageTypeVisible u := by
  unfold ToggleMessageType IsMessageTypeVisible
  cases h : f.HiddenMessageTypes.getBool t <;> by_cases hd : u = t <;>
    simp [getBool_set_true, getBool_delete, hd, h]

theorem IsColumnVisible_ToggleColumn (f : Filter) (c d : String) :
    (f.ToggleColumn c).IsColumnVisible d =
      if d = c then !f.IsColumnVisible c else f.IsColumnVisible d := by
  unfold ToggleColumn IsColumnVisible
  cases h : f.HiddenColumns.getBool c <;> by_cases hd : d = c <;>
    simp [getBool_set_true, getBool_delete, hd, h]

theorem ToggleChannel_frame (f : Filter) (c : Nat) :
    (f.ToggleChannel c).HiddenMessageTypes = f.HiddenMessageTypes ∧
    (f.ToggleChannel c).HiddenColumns = f.HiddenColumns ∧
    (f.ToggleChannel c).ShowMusicalNotes = f.ShowMusicalNotes := by
  unfold ToggleChannel
  split <;> exact ⟨rfl, rfl, rfl⟩

theorem ToggleMessageType_frame (f : Filter) (t : String) :
    (f.ToggleMessageType t).HiddenChannels = f.HiddenChannels ∧
    (f.ToggleMessageType t).HiddenColumns = f.HiddenColumns ∧
    (f.ToggleMessageType t).ShowMusicalNotes = f.ShowMusicalNotes := by
  unfold ToggleMessageType
  split <;> exact ⟨rfl, rfl, rfl⟩

theorem ToggleColumn_frame (f : Filter) (c : String) :
    (f.ToggleColumn c).HiddenChannels = f.HiddenChannels ∧
    (f.ToggleColumn c).HiddenMessageTypes = f.HiddenMessageTypes ∧
    (f.ToggleColumn c).ShowMusicalNotes = f.ShowMusicalNotes := by
  unfold ToggleColumn
  split <;> exact ⟨rfl, rfl, rfl⟩

end models

namespace models

open Filter

theorem IsMessageTypeVisible_congr (f g : Filter) (h : g.HiddenMessageTypes = f.HiddenMessageTypes)
    (t : String) : g.IsMessageTypeVisible t = f.IsMessageTypeVisible t := by
  unfold IsMessageTypeVisible
  rw [h]

theorem IsColumnVisible_congr (f g : Filter) (h : g.HiddenColumns = f.HiddenColumns)
    (c : String) : g.IsColumnVisible c = f.IsColumnVisible c := by
  unfold IsColumnVisible
  rw [h]

theorem IsChannelVisible_congr (f g : Filter) (h : g.HiddenChannels = f.HiddenChannels)
    (c : Nat) : g.IsChannelVisible c = f.IsChannelVisible c := by
  unfold IsChannelVisible
  rw [h]

/-- C11: each filter toggle is its own inverse: for every filter and every
argument x, applying `ToggleChannel x` twice, `ToggleMessageType x` twice or
`ToggleColumn x` twice gives back the original visibility of every channel, every
message type and every column (x included, whether it was visible or hidden). -/
theorem toggle_twice_restores_visibility (f : Filter) :
    (∀ x : Nat,
      (∀ c, ((f.ToggleChannel x).ToggleChannel x).IsChannelVisible c = f.IsChannelVisible c) ∧
      (∀ t, ((f.ToggleChannel x).ToggleChannel x).IsMessageTypeVisible t
          = f.IsMessageTypeVisible t) ∧
      (∀ col, ((f.ToggleChannel x).ToggleChannel x).IsColumnVisible col
          = f.IsColumnVisible col)) ∧
    (∀ x : String,
      (∀ c, ((f.ToggleMessageType x).ToggleMessageType x).IsChannelVisible c
          = f.IsChannelVisible c) ∧
      (∀ t, ((f.ToggleMessageType x).ToggleMessageType x).IsMessageTypeVisible t
          = f.IsMessageTypeVisible t) ∧
      (∀ col, ((f.ToggleMessageType x).ToggleMessageType x).IsColumnVisible col
          = f.IsColumnVisible col)) ∧
    (∀ x : String,
      (∀ c, ((f.ToggleColumn x).ToggleColumn x).IsChannelVisible c = f.IsChannelVisible c) ∧
      (∀ t, ((f.ToggleColumn x).ToggleColumn x).IsMessageTypeVisible t
          = f.IsMessageTypeVisible t) ∧
      (∀ col, ((f.ToggleColumn x).ToggleColumn x).IsColumnVisible col
          = f.IsColumnVisible col)) := by
  refine ⟨fun x => ⟨?_, ?_, ?_⟩, fun x => ⟨?_, ?_, ?_⟩, fun x => ⟨?_, ?_, ?_⟩⟩
  · intro c
    simp only [IsChannelVisible_ToggleChannel]
    by_cases h : c = x <;> simp [h]
  · intro t
    exact IsMessageTypeVisible_congr f _
      ((ToggleChannel_frame _ x).1.trans (ToggleChannel_frame f x).1) t
  · intro col
    exact IsColumnVisible_congr f _
      ((ToggleChannel_frame _ x).2.1.trans (ToggleChannel_frame f x).2.1) col
  · intro c
    exact IsChannelVisible_congr f _
      ((ToggleMessageType_frame _ x).1.trans (ToggleMessageType_frame f x).1) c
  · intro t
    simp only [IsMessageTypeVisible_ToggleMessageType]
    by_cases h : t = x <;> simp [h]
  · intro col
    exact IsColumnVisible_congr f _
      ((ToggleMessageType_frame _ x).2.1.trans (ToggleMessageType_frame f x).2.1) col
  · intro c
    exact IsChannelVisible_congr f _
      ((ToggleColumn_frame _ x).1.trans (ToggleColumn_frame f x).1) c
  · intro t
    exact IsMessageTypeVisible_congr f _
      ((ToggleColumn_frame _ x).2.1.trans (ToggleColumn_frame f x).2.1) t
  · intro col
    simp only [IsColumnVisible_ToggleColumn]
    by_cases h : col = x <;> simp [h]

/-- C12: for every filter and channel c, after `ToggleChannel c` the set of hidden
channels is the symmetric difference of the old set with {c}: `IsChannelVisible c`
is the negation of its previous value, `IsChannelVisible d` is unchanged for every
other channel d, and the hidden message types, the hidden columns and
`ShowMusicalNotes` are unchanged. -/
theorem ToggleChannel_flips_only_channel (f : Filter) (c : Nat) :
    hiddenChannelSet (f.ToggleChannel c) = symmDiff (hiddenChannelSet f) {c} ∧
    (f.ToggleChannel c).IsChannelVisible c = !f.IsChannelVisible c ∧
    (∀ d, d ≠ c → (f.ToggleChannel c).IsChannelVisible d = f.IsChannelVisible d) ∧
    (f.ToggleChannel c).HiddenMessageTypes = f.HiddenMessageTypes ∧
    (f.ToggleChannel c).HiddenColumns = f.HiddenColumns ∧
    (f.ToggleChannel c).ShowMusicalNotes = f.ShowMusicalNotes := by
  refine ⟨?_, ?_, ?_, ToggleChannel_frame f c⟩
  · ext d
    have h := IsChannelVisible_ToggleChannel f c d
    unfold IsChannelVisible at h
    simp only [hiddenChannelSet, Set.mem_setOf_eq, Set.mem_symmDiff, Set.mem_singleton_iff]
    by_cases hd : d = c
    · subst hd
      simp only [if_true, Bool.not_not] at h
      cases hb : f.HiddenChannels.getBool d <;> rw [hb] at h <;> simp_all
    · simp only [hd, if_false] at h
      have h2 : (f.ToggleChannel c).HiddenChannels.getBool d = f.HiddenChannels.getBool d := by
        cases hb : f.HiddenChannels.getBool d <;> rw [hb] at h <;> simp_all
      rw [h2]
      simp [hd]
  · rw [IsChannelVisible_ToggleChannel]
    simp
  · intro d hd
    rw [IsChannelVisible_ToggleChannel]
    simp [hd]

/-- C15: `NewFilter` has empty hidden-channel, hidden-message-type and
hidden-column maps and `ShowMusicalNotes = true`; on it every channel, every
message type and every column is visible, and `ShouldShow` is true for every
event. -/
theorem NewFilter_shows_everything :
    (∀ ch, NewFilter.HiddenChannels.get? ch = none) ∧
    (∀ t, NewFilter.HiddenMessageTypes.get? t = none) ∧
    (∀ col, NewFilter.HiddenColumns.get? col = none) ∧
    NewFilter.ShowMusicalNotes = true ∧
    (∀ ch, NewFilter.IsChannelVisible ch = true) ∧
    (∀ t, NewFilter.IsMessageTypeVisible t = true) ∧
    (∀ col, NewFilter.IsColumnVisible col = true) ∧
    (∀ event, NewFilter.ShouldShow event = true) :=
  ⟨fun _ => rfl, fun _ => rfl, fun _ => rfl, rfl, fun _ => rfl, fun _ => rfl, fun _ => rfl,
    fun _ => rfl⟩

end models

namespace models

open Filter

theorem ShouldShow_eq_and (f : Filter) (event : midi.Event) :
    f.ShouldShow event =
      (f.IsChannelVisible event.Channel && f.IsMessageTypeVisible event.MessageType) := by
  unfold ShouldShow IsChannelVisible IsMessageTypeVisible
  cases f.HiddenChannels.getBool event.Channel <;>
    cases f.HiddenMessageTypes.getBool event.MessageType <;> rfl

theorem foldl_ToggleChannel_visible (l : List Nat) (hnd : l.Nodup) (f : Filter) (c : Nat) :
    (l.foldl ToggleChannel f).IsChannelVisible c =
      if c ∈ l then !f.IsChannelVisible c else f.IsChannelVisible c := by
  induction l generalizing f with
  | nil => simp
  | cons x xs ih =>
    have hx : x ∉ xs := (List.nodup_cons.mp hnd).1
    rw [List.foldl_cons, ih (List.nodup_cons.mp hnd).2, IsChannelVisible_ToggleChannel]
    by_cases hc : c = x
    · subst hc
      simp [hx]
    · by_cases hm : c ∈ xs <;> simp [hc, hm]

theorem foldl_ToggleChannel_types (l : List Nat) (f : Filter) :
    (l.foldl ToggleChannel f).HiddenMessageTypes = f.HiddenMessageTypes := by
  induction l generalizing f with
  | nil => rfl
  | cons x xs ih => rw [List.foldl_cons, ih, (ToggleChannel_frame f x).1]

theorem allChannelsHidden_hides (c : Nat) (hc : c < 256) :
    allChannelsHidden.IsChannelVisible c = false := by
  unfold allChannelsHidden
  rw [foldl_ToggleChannel_visible _ (List.nodup_range 256)]
  simp [List.mem_range, hc, NewFilter, IsChannelVisible, GoMap.getBool, GoMap.empty]

theorem exists_visible_type_of_finite (f : Filter) (keys : List String)
    (hkeys : ∀ t, f.HiddenMessageTypes.get? t ≠ none → t ∈ keys) :
    ∃ t, f.IsMessageTypeVisible t = true := by
  obtain ⟨t, ht⟩ := Infinite.exists_not_mem_finset keys.toFinset
  refine ⟨t, ?_⟩
  have hnone : f.HiddenMessageTypes.get? t = none := by
    by_contra h
    exact ht (List.mem_toFinset.mpr (hkeys t h))
  unfold IsMessageTypeVisible GoMap.getBool
  unfold GoMap.get? at hnone
  rw [hnone]
  rfl

end models

namespace models

open Filter

/-- C13, the claim as stated fails: with each of the 256 channel numbers hidden,
the message type "Note On" is visible, yet no event (its channel being a `uint8`)
is accepted before hiding "Note On", so none is accepted before and rejected
after. -/
theorem hiding_type_not_strict_when_no_channel_visible :
    allChannelsHidden.IsMessageTypeVisible "Note On" = true ∧
    ¬ ∃ event : midi.Event, event.Channel < 256 ∧
        allChannelsHidden.ShouldShow event = true ∧
        (allChannelsHidden.ToggleMessageType "Note On").ShouldShow event = false := by
  constructor
  · rw [IsMessageTypeVisible_congr NewFilter allChannelsHidden
      (foldl_ToggleChannel_types (List.range 256) NewFilter)]
    rfl
  · rintro ⟨event, hch, hshow, _⟩
    rw [ShouldShow_eq_and, allChannelsHidden_hides event.Channel hch] at hshow
    simp at hshow

/-- C13 as amended: for every filter and every channel c (a `uint8`) visible in
it, every event accepted after `ToggleChannel c` was accepted before, and if some
message type is visible some event accepted before is rejected afterwards; for
every message type t visible in it, every event accepted after
`ToggleMessageType t` was accepted before, and if some channel is visible some
event accepted before is rejected afterwards.  Some message type is visible
whenever the hidden-message-type map has finitely many keys. -/
theorem hiding_reduces_accepted (f : Filter) :
    (∀ c, c < 256 → f.IsChannelVisible c = true →
      (∀ event, (f.ToggleChannel c).ShouldShow event = true → f.ShouldShow event = true) ∧
      ((∃ t, f.IsMessageTypeVisible t = true) →
        ∃ event : midi.Event, event.Channel < 256 ∧ f.ShouldShow event = true ∧
          (f.ToggleChannel c).ShouldShow event = false)) ∧
    (∀ t, f.IsMessageTypeVisible t = true →
      (∀ event, (f.ToggleMessageType t).ShouldShow event = true → f.ShouldShow event = true) ∧
      ((∃ c, c < 256 ∧ f.IsChannelVisible c = true) →
        ∃ event : midi.Event, event.Channel < 256 ∧ f.ShouldShow event = true ∧
          (f.ToggleMessageType t).ShouldShow event = false)) ∧
    (∀ keys : List String, (∀ t, f.HiddenMessageTypes.get? t ≠ none → t ∈ keys) →
      ∃ t, f.IsMessageTypeVisible t = true) := by
  refine ⟨?_, ?_, exists_visible_type_of_finite f⟩
  · intro c hc hvis
    constructor
    · intro event h
      rw [ShouldShow_eq_and, IsChannelVisible_ToggleChannel,
        IsMessageTypeVisible_congr f _ (ToggleChannel_frame f c).1] at h
      rw [ShouldShow_eq_and]
      by_cases hd : event.Channel = c
      · simp [hd, hvis] at h
      · simpa [hd] using h
    · rintro ⟨t, ht⟩
      refine ⟨eventOn c t, hc, ?_, ?_⟩
      · rw [ShouldShow_eq_and]
        simp [eventOn, hvis, ht]
      · rw [ShouldShow_eq_and, IsChannelVisible_ToggleChannel]
        simp [eventOn, hvis]
  · intro t hvis
    constructor
    · intro event h
      rw [ShouldShow_eq_and, IsMessageTypeVisible_ToggleMessageType,
        IsChannelVisible_congr f _ (ToggleMessageType_frame f t).1] at h
      rw [ShouldShow_eq_and]
      by_cases hd : event.MessageType = t
      · simp [hd, hvis] at h
      · simpa [hd] using h
    · rintro ⟨c, hc, hc2⟩
      refine ⟨eventOn c t, hc, ?_, ?_⟩
      · rw [ShouldShow_eq_and]
        simp [eventOn, hvis, hc2]
      · rw [ShouldShow_eq_and, IsMessageTypeVisible_ToggleMessageType]
        simp [eventOn, hvis]

/-- Witness of C13 as amended, on the new filter: hiding channel 1 rejects an
accepted event, and so does hiding "Note On". -/
theorem hiding_reduces_accepted_witness :
    (∃ event : midi.Event, event.Channel < 256 ∧ NewFilter.ShouldShow event = true ∧
      (NewFilter.ToggleChannel 1).ShouldShow event = false) ∧
    (∃ event : midi.Event, event.Channel < 256 ∧ NewFilter.ShouldShow event = true ∧
      (NewFilter.ToggleMessageType "Note On").ShouldShow event = false) :=
  ⟨((hiding_reduces_accepted NewFilter).1 1 (by decide) rfl).2 ⟨"CC", rfl⟩,
   ((hiding_reduces_accepted NewFilter).2.1 "Note On" rfl).2 ⟨1, by decide, rfl⟩⟩

end models

namespace components

open EventViewer

theorem remove_absent_eq (e : EventViewer) (ch key : Nat) (h : e.isActive ch key = false) :
    (match e.activeNotes.get? ch with
      | none => e
      | some notes => { e with activeNotes := e.activeNotes.set ch (notes.delete key) }) = e := by
  unfold isActive at h
  cases hch : e.activeNotes.get? ch with
  | none => rfl
  | some notes =>
    rw [hch] at h
    simp only [GoMap.get?, midi.isSome_eq_false_iff_none] at h hch
    have hdel : notes.delete key = notes := by
      funext k
      unfold GoMap.delete
      by_cases hk : k = key
      · simp [hk, h]
      · simp [hk]
    have hset : e.activeNotes.set ch (notes.delete key) = e.activeNotes := by
      funext c
      unfold GoMap.set
      by_cases hc : c = ch
      · simp [hc, hdel, hch]
      · simp [hc]
    simp only [hset]

/-- C14: removing a note that is not sounding is a no-op: for every viewer state
and every key (ch, key) that is not in the active-note map (a channel without any
map included), a Note Off on (ch, key), whatever its velocity, and a Note On on
(ch, key) with velocity zero leave the viewer, and so the active-note map, exactly
as it was; `updateActiveNotes` has no failing path. -/
theorem updateActiveNotes_remove_absent (e : EventViewer) (now : Nat) (msg : midi.Message)
    (ch key : Nat) (habsent : e.isActive ch key = false) :
    (∀ vel, (midi.ParseMessage now msg).MessageType = "Note Off" →
        msg.GetNoteOff = some (ch, key, vel) →
        e.updateActiveNotes (midi.ParseMessage now msg) = e) ∧
    ((midi.ParseMessage now msg).MessageType = "Note On" →
        msg.GetNoteOn = some (ch, key, 0) →
        e.updateActiveNotes (midi.ParseMessage now msg) = e) := by
  constructor
  · intro vel hk hm
    have hne : (midi.ParseMessage now msg).MessageType ≠ "Note On" := by rw [hk]; decide
    conv_lhs => unfold updateActiveNotes
    rw [if_neg hne, if_pos hk, ParseMessage_Message, hm]
    exact remove_absent_eq e ch key habsent
  · intro hk hm
    conv_lhs => unfold updateActiveNotes
    rw [if_pos hk, ParseMessage_Message, hm]
    simp only [gt_iff_lt, Nat.lt_irrefl, if_false]
    exact remove_absent_eq e ch key habsent

/-- Witness of C14: on a new viewer (no channel has a map) a Note Off (3, 60) and
a Note On (3, 60) with velocity zero change nothing. -/
theorem updateActiveNotes_remove_absent_witness :
    (NewEventViewer ⟨"port", 0⟩ theme.Dark).updateActiveNotes
        (midi.ParseMessage 9 (midi.NoteOffVelocity 3 60 0))
      = NewEventViewer ⟨"port", 0⟩ theme.Dark ∧
    (NewEventViewer ⟨"port", 0⟩ theme.Dark).updateActiveNotes
        (midi.ParseMessage 9 (midi.NoteOn 3 60 0))
      = NewEventViewer ⟨"port", 0⟩ theme.Dark :=
  ⟨(updateActiveNotes_remove_absent (NewEventViewer ⟨"port", 0⟩ theme.Dark) 9
      (midi.NoteOffVelocity 3 60 0) 3 60 rfl).1 0 rfl rfl,
   (updateActiveNotes_remove_absent (NewEventViewer ⟨"port", 0⟩ theme.Dark) 9
      (midi.NoteOn 3 60 0) 3 60 rfl).2 rfl rfl⟩

end components

namespace components

open EventViewer

theorem twoNotesViewer_activeNotes (ch : Nat) :
    twoNotesViewer.activeNotes.get? ch =
      if ch = 0 then some (((GoMap.empty : GoMap Nat Bool).set 60 true).set 61 true) else none := by
  by_cases h : ch = 0
  · subst h; rfl
  · simp only [h, if_false]
    show twoNotesViewer.activeNotes ch = none
    unfold twoNotesViewer feed
    simp [List.foldl, updateActiveNotes, ParseMessage_MessageType, ParseMessage_Message,
      midi.getMessageType, midi.NoteOn, NewEventViewer, GoMap.get?, GoMap.set, GoMap.empty, h]

theorem twoNotesViewer_isRangeOrder (order : Nat → List Nat)
    (h : order 0 = [60, 61] ∨ order 0 = [61, 60]) :
    twoNotesViewer.isRangeOrder order := by
  intro ch channelNotes hget
  rw [twoNotesViewer_activeNotes] at hget
  by_cases hch : ch = 0
  · subst hch
    simp only [if_true, Option.some.injEq] at hget
    subst hget
    rcases h with h | h <;> rw [h] <;> refine ⟨by decide, ?_⟩ <;> intro k <;>
      by_cases h1 : k = 61 <;> by_cases h0 : k = 60 <;>
      simp [GoMap.set, GoMap.empty, h1, h0]
  · simp [hch] at hget

end components

namespace components

open EventViewer

theorem mem_channel_block (e : EventViewer) (order : Nat → List Nat) (ch : Nat) (p : Nat × Nat) :
    p ∈ (match e.activeNotes.get? ch with
          | some _ =>
            if 0 < (order ch).length then (order ch).map (fun note => (ch, note)) else []
          | none => []) ↔
      p.1 = ch ∧ (e.activeNotes.get? ch).isSome = true ∧ p.2 ∈ order ch := by
  obtain ⟨c, n⟩ := p
  cases hg : e.activeNotes.get? ch with
  | none => simp
  | some notes =>
    by_cases hlen : 0 < (order ch).length
    · simp only [hlen, if_true, List.mem_map, Prod.mk.injEq, Option.isSome_some, true_and]
      constructor
      · rintro ⟨a, ha, rfl, rfl⟩
        exact ⟨rfl, ha⟩
      · rintro ⟨rfl, hn⟩
        exact ⟨n, hn, rfl, rfl⟩
    · have hnil : order ch = [] := List.length_eq_zero.mp (by omega)
      simp [hnil]

theorem mem_activeNoteKeys_iff (e : EventViewer) (order : Nat → List Nat) (p : Nat × Nat) :
    p ∈ activeNoteKeys e order ↔
      p.1 < 16 ∧ (e.activeNotes.get? p.1).isSome = true ∧ p.2 ∈ order p.1 := by
  unfold activeNoteKeys
  simp only [List.mem_flatten, List.mem_map, List.mem_range]
  constructor
  · rintro ⟨l, ⟨ch, hch, rfl⟩, hp⟩
    have h := (mem_channel_block e order ch p).mp hp
    rw [h.1]
    exact ⟨hch, h.2⟩
  · rintro ⟨h16, hrest⟩
    exact ⟨_, ⟨p.1, h16, rfl⟩, (mem_channel_block e order p.1 p).mpr ⟨rfl, hrest⟩⟩

theorem activeNoteKeys_channels_ascending (e : EventViewer) (order : Nat → List Nat) :
    (activeNoteKeys e order).Pairwise (fun p q => p.1 ≤ q.1) := by
  unfold activeNoteKeys
  rw [List.pairwise_flatten]
  constructor
  · intro l hl
    obtain ⟨ch, _, rfl⟩ := List.mem_map.mp hl
    rw [List.pairwise_iff_forall_sublist]
    intro p q hsub
    have hp := (mem_channel_block e order ch p).mp (hsub.subset (by simp))
    have hq := (mem_channel_block e order ch q).mp (hsub.subset (by simp))
    rw [hp.1, hq.1]
  · rw [List.pairwise_map]
    refine (List.pairwise_lt_range 16).imp ?_
    intro a b hab p hp q hq
    have h1 := (mem_channel_block e order a p).mp hp
    have h2 := (mem_channel_block e order b q).mp hq
    rw [h1.1, h2.1]
    exact Nat.le_of_lt hab

theorem activeNoteKeys_nodup (e : EventViewer) (order : Nat → List Nat)
    (h : e.isRangeOrder order) : (activeNoteKeys e order).Nodup := by
  unfold activeNoteKeys
  rw [List.nodup_flatten]
  constructor
  · intro l hl
    obtain ⟨ch, _, rfl⟩ := List.mem_map.mp hl
    cases hg : e.activeNotes.get? ch with
    | none => simp
    | some notes =>
      simp only
      split
      · exact (h ch notes hg).1.map (fun a b hab => (Prod.mk.inj hab).2)
      · exact List.nodup_nil
  · rw [List.pairwise_map]
    refine (List.pairwise_lt_range 16).imp ?_
    intro a b hab
    intro p hp hq
    have h1 := (mem_channel_block e order a p).mp hp
    have h2 := (mem_channel_block e order b p).mp hq
    omega

theorem activeNoteLabels_eq_map (e : EventViewer) (order : Nat → List Nat) :
    activeNoteLabels e order = (activeNoteKeys e order).map (fun p => e.noteLabel p.1 p.2) := by
  unfold activeNoteLabels activeNoteKeys
  rw [List.map_flatten, List.map_map]
  congr 1
  apply List.map_congr_left
  intro ch _
  simp only [Function.comp]
  cases e.activeNotes.get? ch with
  | none => rfl
  | some notes =>
    simp only
    split
    · rw [List.map_map]; rfl
    · rfl

theorem mem_activeNoteKeys_of_rangeOrder (e : EventViewer) (order : Nat → List Nat)
    (h : e.isRangeOrder order) (ch note : Nat) :
    (ch, note) ∈ activeNoteKeys e order ↔ ch < 16 ∧ e.isActive ch note = true := by
  rw [mem_activeNoteKeys_iff]
  unfold isActive
  cases hg : e.activeNotes.get? ch with
  | none => simp
  | some notes =>
    simp only [Option.isSome_some, true_and, GoMap.get?]
    rw [(h ch notes hg).2 note]

end components

namespace components

open EventViewer

/-- C16, the claim as stated fails: with the notes 60 and 61 sounding on channel
0, `range` may visit 61 before 60; the snapshot is then (0, 61), (0, 60), which
is not ascending by note, and it differs from the snapshot of the same state when
`range` visits 60 first. -/
theorem activeNoteKeys_not_note_ascending :
    twoNotesViewer.isRangeOrder highFirst ∧
    twoNotesViewer.isRangeOrder lowFirst ∧
    activeNoteKeys twoNotesViewer highFirst = [(0, 61), (0, 60)] ∧
    ¬ (activeNoteKeys twoNotesViewer highFirst).Pairwise keyLE ∧
    activeNoteLabels twoNotesViewer highFirst = ["Ch1:C#4", "Ch1:C4"] ∧
    activeNoteLabels twoNotesViewer lowFirst = ["Ch1:C4", "Ch1:C#4"] ∧
    renderActiveNotes twoNotesViewer highFirst ≠ renderActiveNotes twoNotesViewer lowFirst :=
  ⟨twoNotesViewer_isRangeOrder highFirst (Or.inr rfl),
   twoNotesViewer_isRangeOrder lowFirst (Or.inl rfl),
   by decide, by decide, by decide, by decide, by decide⟩

/-- C16 as amended: for every viewer state and every order in which `range` may
visit the channel maps, the notes `renderActiveNotes` builds are the labels of the
keys it visits; these keys are exactly the sounding notes of channels 0 to 15,
each once, with channels in ascending order; the notes of one channel come in the
iteration order of its map, so two renderings of the same state list the same
notes, one a rearrangement of the other. -/
theorem activeNoteKeys_channel_ascending (e : EventViewer) (order : Nat → List Nat)
    (horder : e.isRangeOrder order) :
    activeNoteLabels e order = (activeNoteKeys e order).map (fun p => e.noteLabel p.1 p.2) ∧
    (activeNoteKeys e order).Pairwise (fun p q => p.1 ≤ q.1) ∧
    (activeNoteKeys e order).Nodup ∧
    (∀ ch note, (ch, note) ∈ activeNoteKeys e order ↔ ch < 16 ∧ e.isActive ch note = true) ∧
    (∀ order2, e.isRangeOrder order2 →
      (activeNoteKeys e order2).Perm (activeNoteKeys e order) ∧
      (activeNoteLabels e order2).Perm (activeNoteLabels e order)) := by
  refine ⟨activeNoteLabels_eq_map e order, activeNoteKeys_channels_ascending e order,
    activeNoteKeys_nodup e order horder, mem_activeNoteKeys_of_rangeOrder e order horder, ?_⟩
  intro order2 h2
  have hperm : (activeNoteKeys e order2).Perm (activeNoteKeys e order) := by
    rw [List.perm_ext_iff_of_nodup (activeNoteKeys_nodup e order2 h2)
      (activeNoteKeys_nodup e order horder)]
    rintro ⟨ch, note⟩
    rw [mem_activeNoteKeys_of_rangeOrder e order2 h2,
      mem_activeNoteKeys_of_rangeOrder e order horder]
  refine ⟨hperm, ?_⟩
  rw [activeNoteLabels_eq_map, activeNoteLabels_eq_map]
  exact hperm.map _

/-- Witness of C16 as amended: the viewer with notes 60 and 61 on channel 0, the
map of channel 0 visited with 61 first. -/
theorem activeNoteKeys_channel_ascending_witness :
    activeNoteLabels twoNotesViewer highFirst
      = (activeNoteKeys twoNotesViewer highFirst).map
          (fun p => twoNotesViewer.noteLabel p.1 p.2) ∧
    (activeNoteKeys twoNotesViewer highFirst).Pairwise (fun p q => p.1 ≤ q.1) ∧
    (activeNoteKeys twoNotesViewer highFirst).Nodup ∧
    (∀ ch note, (ch, note) ∈ activeNoteKeys twoNotesViewer highFirst ↔
      ch < 16 ∧ twoNotesViewer.isActive ch note = true) ∧
    (∀ order2, twoNotesViewer.isRangeOrder order2 →
      (activeNoteKeys twoNotesViewer order2).Perm (activeNoteKeys twoNotesViewer highFirst) ∧
      (activeNoteLabels twoNotesViewer order2).Perm
        (activeNoteLabels twoNotesViewer highFirst)) :=
  activeNoteKeys_channel_ascending twoNotesViewer highFirst
    (twoNotesViewer_isRangeOrder highFirst (Or.inr rfl))

end components

namespace midi

/-- C17, the claim as stated fails: a timing-clock message and a SysEx message
carry no channel, and the events `ParseMessage` makes of them have `Channel` 0,
a real channel number, the same as the event of a Note On on channel 0. -/
theorem ParseMessage_no_channel_is_channel_zero :
    TimingClock.GetChannel = none ∧
    (ParseMessage 0 TimingClock).MessageType = "Clock" ∧
    (ParseMessage 0 TimingClock).Channel = 0 ∧
    (SysEx [1, 2]).GetChannel = none ∧
    (ParseMessage 0 (SysEx [1, 2])).MessageType = "SysEx" ∧
    (ParseMessage 0 (SysEx [1, 2])).Channel = 0 ∧
    (ParseMessage 0 (NoteOn 0 60 100)).Channel = 0 ∧
    ¬ ∀ msg : Message, msg.GetChannel = none → ¬ (ParseMessage 0 msg).Channel < 16 := by
  refine ⟨rfl, by decide, rfl, rfl, by decide, rfl, rfl, ?_⟩
  intro h
  exact h TimingClock rfl (by decide)

/-- C17 as amended: for every message, `ParseMessage` sets the event's `Channel`
to the message's channel whenever `GetChannel` succeeds, and leaves `Channel` at
its zero value 0 whenever `GetChannel` fails (as for SysEx and system real-time
messages). -/
theorem ParseMessage_Channel (now : Nat) (msg : Message) :
    (∀ ch, msg.GetChannel = some ch → (ParseMessage now msg).Channel = ch) ∧
    (msg.GetChannel = none → (ParseMessage now msg).Channel = 0) := by
  unfold ParseMessage
  constructor
  · intro ch h
    rw [h]
  · intro h
    rw [h]

/-- Witness of C17 as amended: a Note On on channel 5 and a timing clock. -/
theorem ParseMessage_Channel_witness :
    (ParseMessage 3 (NoteOn 5 60 100)).Channel = 5 ∧
    (ParseMessage 3 TimingClock).Channel = 0 :=
  ⟨(ParseMessage_Channel 3 (NoteOn 5 60 100)).1 5 rfl,
   (ParseMessage_Channel 3 TimingClock).2 rfl⟩

end midi

namespace components

open EventViewer

theorem Matches_Clear_iff (k : String) : Matches k eventViewerKeys.Clear = true ↔ k = "c" := by
  simp [Matches, eventViewerKeys]

/-- C18: for every viewer state (any filter, paused or not, any log), when the
pressed key is the Clear key `Update` returns no command and a viewer with an
empty event log whose filter, paused flag, capacity, active-note map and other
fields are unchanged. -/
theorem Update_Clear (e : EventViewer) (now : Nat) (k : String)
    (hk : Matches k eventViewerKeys.Clear = true) :
    ∃ e1, e.Update now (Msg.KeyMsg k) = some (e1, none) ∧
      e1.events = [] ∧ e1.filter = e.filter ∧ e1.paused = e.paused ∧
      e1.maxEvents = e.maxEvents ∧ e1.activeNotes = e.activeNotes ∧
      e1 = { e with events := [] } := by
  rw [Matches_Clear_iff] at hk
  subst hk
  refine ⟨{ e with events := [] }, ?_, rfl, rfl, rfl, rfl, rfl, rfl⟩
  simp [Update, Matches, eventViewerKeys]

/-- Witness of C18: the key "c" on a paused viewer that holds one event and one
active note. -/
theorem Update_Clear_witness :
    ∃ e1, EventViewer.Update
        { twoNotesViewer with
            paused := true, events := [midi.ParseMessage 1 (midi.NoteOn 0 60 100)] }
        4 (Msg.KeyMsg "c") = some (e1, none) ∧
      e1.events = [] ∧ e1.filter = twoNotesViewer.filter ∧ e1.paused = true ∧
      e1.maxEvents = twoNotesViewer.maxEvents ∧ e1.activeNotes = twoNotesViewer.activeNotes ∧
      e1 = { twoNotesViewer with paused := true, events := [] } :=
  Update_Clear
    { twoNotesViewer with paused := true, events := [midi.ParseMessage 1 (midi.NoteOn 0 60 100)] }
    4 "c" (by decide)

/-- C19: while the viewer is paused, for every incoming MIDI message `Update`
returns the viewer as it was, so the event log and the active-note map are
unchanged, and returns no command. -/
theorem Update_paused (e : EventViewer) (now : Nat) (m : midi.Message)
    (hp : e.paused = true) :
    e.Update now (Msg.MIDIEventMsg m) = some (e, none) ∧
    (∀ e1 c, e.Update now (Msg.MIDIEventMsg m) = some (e1, c) →
      e1.events = e.events ∧ e1.activeNotes = e.activeNotes) := by
  have h : e.Update now (Msg.MIDIEventMsg m) = some (e, none) := by
    simp [Update, hp]
  refine ⟨h, ?_⟩
  intro e1 c h1
  rw [h] at h1
  simp only [Option.some.injEq, Prod.mk.injEq] at h1
  rw [← h1.1]
  exact ⟨rfl, rfl⟩

/-- Witness of C19: a Note On (2, 64, 90) arrives at a paused new viewer. -/
theorem Update_paused_witness :
    EventViewer.Update { NewEventViewer ⟨"port", 0⟩ theme.Dark with paused := true }
        8 (Msg.MIDIEventMsg (midi.NoteOn 2 64 90))
      = some ({ NewEventViewer ⟨"port", 0⟩ theme.Dark with paused := true }, none) :=
  (Update_paused { NewEventViewer ⟨"port", 0⟩ theme.Dark with paused := true }
    8 (midi.NoteOn 2 64 90) rfl).1

/-- C20: changing the filter never re-filters the log: for every viewer state and
every new filter, on `FilterUpdatedMsg` the function `Update` returns no command
and a viewer with the new filter whose event log (contents and order),
active-note map and other fields are unchanged, whether or not the new filter
accepts the events already logged. -/
theorem Update_FilterUpdated (e : EventViewer) (now : Nat) (f : models.Filter) :
    ∃ e1, e.Update now (Msg.FilterUpdatedMsg f) = some (e1, none) ∧
      e1.filter = f ∧ e1.events = e.events ∧ e1.activeNotes = e.activeNotes ∧
      e1 = { e with filter := f } :=
  ⟨{ e with filter := f }, rfl, rfl, rfl, rfl, rfl⟩

/-- Witness of C20: the log holds a Note On on channel 0 and the new filter hides
channel 0; the new filter rejects the logged event, and the log keeps it. -/
theorem Update_FilterUpdated_witness :
    (models.NewFilter.ToggleChannel 0).ShouldShow
        (midi.ParseMessage 1 (midi.NoteOn 0 60 100)) = false ∧
    ∃ e1, EventViewer.Update
        { twoNotesViewer with events := [midi.ParseMessage 1 (midi.NoteOn 0 60 100)] }
        6 (Msg.FilterUpdatedMsg (models.NewFilter.ToggleChannel 0)) = some (e1, none) ∧
      e1.filter = models.NewFilter.ToggleChannel 0 ∧
      e1.events = [midi.ParseMessage 1 (midi.NoteOn 0 60 100)] ∧
      e1.activeNotes = twoNotesViewer.activeNotes ∧
      e1 = { twoNotesViewer with
              events := [midi.ParseMessage 1 (midi.NoteOn 0 60 100)],
              filter := models.NewFilter.ToggleChannel 0 } :=
  ⟨by decide,
   Update_FilterUpdated
    { twoNotesViewer with events := [midi.ParseMessage 1 (midi.NoteOn 0 60 100)] }
    6 (models.NewFilter.ToggleChannel 0)⟩

end components

namespace midi

theorem ParseMessage_Channel_of_no_channel (now : Nat) (msg : Message)
    (h : msg.GetChannel = none) : (ParseMessage now msg).Channel = 0 := by
  unfold ParseMessage
  rw [h]

end midi

namespace components

open EventViewer

/-- C21: for every message that carries no channel (`GetChannel` fails),
`ParseMessage` leaves `Channel` at 0; so `ShouldShow` rejects the event whenever
channel 0 is hidden, whatever the visibility of its message type, and an unpaused
viewer whose filter hides channel 0 does not log it. -/
theorem ShouldShow_rejects_no_channel_when_zero_hidden (now : Nat) (msg : midi.Message)
    (hch : msg.GetChannel = none) :
    (midi.ParseMessage now msg).Channel = 0 ∧
    (∀ f : models.Filter, f.IsChannelVisible 0 = false →
      f.ShouldShow (midi.ParseMessage now msg) = false) ∧
    (∀ e : EventViewer, e.paused = false → e.filter.IsChannelVisible 0 = false →
      ∃ e1, e.Update now (Msg.MIDIEventMsg msg) = some (e1, none) ∧ e1.events = e.events) := by
  have h0 := midi.ParseMessage_Channel_of_no_channel now msg hch
  have hrej : ∀ f : models.Filter, f.IsChannelVisible 0 = false →
      f.ShouldShow (midi.ParseMessage now msg) = false := by
    intro f hf
    rw [models.ShouldShow_eq_and, h0, hf]
    rfl
  refine ⟨h0, hrej, ?_⟩
  intro e hp hf
  exact ⟨_, Update_midi_rejected e now msg hp (hrej e.filter hf), updateActiveNotes_events e _⟩

/-- Witness of C21: a timing clock arrives while channel 0 is hidden; the message
type "Clock" is visible, the event is rejected and the log stays empty. -/
theorem ShouldShow_rejects_no_channel_when_zero_hidden_witness :
    (models.NewFilter.ToggleChannel 0).IsMessageTypeVisible
        (midi.ParseMessage 4 midi.TimingClock).MessageType = true ∧
    (midi.ParseMessage 4 midi.TimingClock).MessageType = "Clock" ∧
    (midi.ParseMessage 4 midi.TimingClock).Channel = 0 ∧
    (models.NewFilter.ToggleChannel 0).ShouldShow (midi.ParseMessage 4 midi.TimingClock) = false ∧
    ∃ e1, EventViewer.Update
        { NewEventViewer ⟨"port", 0⟩ theme.Dark with filter := models.NewFilter.ToggleChannel 0 }
        4 (Msg.MIDIEventMsg midi.TimingClock) = some (e1, none) ∧ e1.events = [] :=
  ⟨by decide, by decide,
   (ShouldShow_rejects_no_channel_when_zero_hidden 4 midi.TimingClock rfl).1,
   (ShouldShow_rejects_no_channel_when_zero_hidden 4 midi.TimingClock rfl).2.1
     (models.NewFilter.ToggleChannel 0) (by decide),
   (ShouldShow_rejects_no_channel_when_zero_hidden 4 midi.TimingClock rfl).2.2
     { NewEventViewer ⟨"port", 0⟩ theme.Dark with filter := models.NewFilter.ToggleChannel 0 }
     rfl (by decide)⟩

end components

namespace components

open OptionsModal

theorem indexAt_some_of_lt (s : List String) (i : Int) (h0 : 0 ≤ i)
    (h1 : i < (s.length : Int)) : ∃ x, indexAt s i = some x := by
  have hlt : i.toNat < s.length := by omega
  refine ⟨s.get ⟨i.toNat, hlt⟩, ?_⟩
  unfold indexAt
  rw [if_pos ⟨h0, h1⟩]
  exact List.get?_eq_get hlt

theorem toUint8_of_le (i : Int) (h0 : 0 ≤ i) (h1 : i ≤ 15) :
    ((toUint8 i : Nat) : Int) = i ∧ toUint8 i < 16 := by
  unfold toUint8
  constructor <;> omega

theorem OptionsModal_Update_preserves_cursor (o : OptionsModal) (msg : Msg)
    (h0 : 0 ≤ o.cursor) (h1 : o.cursor ≤ o.lastIndex)
    (hm : o.messageTypes.length = 12) (hc : o.columns.length = 7) :
    ∃ o1 c, o.Update msg = some (o1, c) ∧ 0 ≤ o1.cursor ∧ o1.cursor ≤ o1.lastIndex ∧
      o1.messageTypes.length = 12 ∧ o1.columns.length = 7 := by
  cases msg with
  | WindowSizeMsg w h => exact ⟨_, _, rfl, h0, h1, hm, hc⟩
  | MIDIEventMsg m => exact ⟨_, _, rfl, h0, h1, hm, hc⟩
  | FilterUpdatedMsg f => exact ⟨_, _, rfl, h0, h1, hm, hc⟩
  | OtherMsg => exact ⟨_, _, rfl, h0, h1, hm, hc⟩
  | KeyMsg k =>
    unfold lastIndex at h1
    unfold OptionsModal.Update
    simp only
    split
    · split
      · refine ⟨_, _, rfl, ?_, ?_, hm, hc⟩
        · simp only; omega
        · unfold lastIndex
          simp only
          cases hs : o.currentSection <;> rw [hs] at h1 <;> simp only at h1 ⊢ <;> omega
      · exact ⟨_, _, rfl, h0, by unfold lastIndex; exact h1, hm, hc⟩
    · split
      · split
        · rename_i hlt
          refine ⟨_, _, rfl, ?_, ?_, hm, hc⟩
          · simp only; omega
          · unfold lastIndex
            simp only
            cases hs : o.currentSection <;> rw [hs] at hlt <;> simp only at hlt ⊢ <;> omega
        · exact ⟨_, _, rfl, h0, by unfold lastIndex; exact h1, hm, hc⟩
      · split
        · cases hs : o.currentSection <;> rw [hs] at h1 <;> simp only at h1 ⊢
          · exact ⟨_, _, rfl, h0, by unfold lastIndex; rw [hs]; exact h1, hm, hc⟩
          · exact ⟨_, _, rfl, by simp, by unfold lastIndex; simp, hm, hc⟩
          · exact ⟨_, _, rfl, by simp, by unfold lastIndex; simp only; omega, hm, hc⟩
          · exact ⟨_, _, rfl, by simp, by unfold lastIndex; simp only; omega, hm, hc⟩
        · split
          · cases hs : o.currentSection <;> rw [hs] at h1 <;> simp only at h1 ⊢
            · exact ⟨_, _, rfl, by simp, by unfold lastIndex; simp only; omega, hm, hc⟩
            · exact ⟨_, _, rfl, by simp, by unfold lastIndex; simp only; omega, hm, hc⟩
            · exact ⟨_, _, rfl, by simp, by unfold lastIndex; simp, hm, hc⟩
            · exact ⟨_, _, rfl, h0, by unfold lastIndex; rw [hs]; exact h1, hm, hc⟩
          · split
            · cases hs : o.currentSection <;> rw [hs] at h1 <;> simp only at h1 ⊢
              · exact ⟨_, _, rfl, h0, by unfold lastIndex; simp only [hs]; exact h1, hm, hc⟩
              · obtain ⟨x, hx⟩ := indexAt_some_of_lt o.messageTypes o.cursor h0 (by omega)
                rw [hx]
                exact ⟨_, _, rfl, h0, by unfold lastIndex; simp only [hs]; exact h1, hm, hc⟩
              · obtain ⟨x, hx⟩ := indexAt_some_of_lt o.columns o.cursor h0 (by omega)
                rw [hx]
                exact ⟨_, _, rfl, h0, by unfold lastIndex; simp only [hs]; exact h1, hm, hc⟩
              · exact ⟨_, _, rfl, h0, by unfold lastIndex; simp only [hs]; exact h1, hm, hc⟩
            · split
              · exact ⟨_, _, rfl, h0, by unfold lastIndex; exact h1, hm, hc⟩
              · split
                · exact ⟨_, _, rfl, h0, by unfold lastIndex; exact h1, hm, hc⟩
                · exact ⟨_, _, rfl, h0, by unfold lastIndex; exact h1, hm, hc⟩

end components

namespace components

open OptionsModal

theorem runModal_preserves_cursor (msgs : List Msg) (o : OptionsModal)
    (h0 : 0 ≤ o.cursor) (h1 : o.cursor ≤ o.lastIndex)
    (hm : o.messageTypes.length = 12) (hc : o.columns.length = 7) :
    ∃ o1, runModal o msgs = some o1 ∧ 0 ≤ o1.cursor ∧ o1.cursor ≤ o1.lastIndex ∧
      o1.messageTypes.length = 12 ∧ o1.columns.length = 7 := by
  induction msgs generalizing o with
  | nil => exact ⟨o, rfl, h0, h1, hm, hc⟩
  | cons msg rest ih =>
    obtain ⟨o1, c, hu, a0, a1, am, ac⟩ := OptionsModal_Update_preserves_cursor o msg h0 h1 hm hc
    obtain ⟨o2, hr, b⟩ := ih o1 a0 a1 am ac
    exact ⟨o2, by simp [runModal, hu, hr], b⟩

/-- C22: for every sequence of messages (key presses, resizes, others) handled by
the options modal's `Update` from `NewOptionsModal`, after every step (every
prefix of the sequence) `Update` has returned and the cursor lies between 0 and
the last index of the current section (15 for channels, `len(messageTypes) - 1`
for message types, `len(columns) - 1` for columns, 0 for settings); so
`uint8(cursor)` is the cursor itself and a channel below 16 in the channel
section, and `messageTypes[cursor]` and `columns[cursor]` are in range in their
sections. -/
theorem cursor_within_section (filter : models.Filter) (t : theme.Theme)
    (msgs : List Msg) (n : Nat) :
    ∃ o, runModal (NewOptionsModal filter t) (msgs.take n) = some o ∧
      0 ≤ o.cursor ∧ o.cursor ≤ o.lastIndex ∧
      (o.currentSection = optionsSection.sectionChannels →
        o.cursor ≤ 15 ∧ ((toUint8 o.cursor : Nat) : Int) = o.cursor ∧ toUint8 o.cursor < 16) ∧
      (o.currentSection = optionsSection.sectionMessageTypes →
        o.cursor ≤ (o.messageTypes.length : Int) - 1 ∧
        ∃ msgType, indexAt o.messageTypes o.cursor = some msgType) ∧
      (o.currentSection = optionsSection.sectionColumns →
        o.cursor ≤ (o.columns.length : Int) - 1 ∧
        ∃ col, indexAt o.columns o.cursor = some col) ∧
      (o.currentSection = optionsSection.sectionSettings → o.cursor = 0) := by
  obtain ⟨o, hr, h0, h1, hm, hc⟩ :=
    runModal_preserves_cursor (msgs.take n) (NewOptionsModal filter t)
      (by simp [NewOptionsModal]) (by simp [NewOptionsModal, lastIndex]) rfl rfl
  refine ⟨o, hr, h0, h1, ?_, ?_, ?_, ?_⟩
  · intro hs
    have h15 : o.cursor ≤ 15 := by
      unfold lastIndex at h1
      rw [hs] at h1
      exact h1
    exact ⟨h15, toUint8_of_le o.cursor h0 h15⟩
  · intro hs
    have hle : o.cursor ≤ (o.messageTypes.length : Int) - 1 := by
      unfold lastIndex at h1
      rw [hs] at h1
      exact h1
    exact ⟨hle, indexAt_some_of_lt o.messageTypes o.cursor h0 (by omega)⟩
  · intro hs
    have hle : o.cursor ≤ (o.columns.length : Int) - 1 := by
      unfold lastIndex at h1
      rw [hs] at h1
      exact h1
    exact ⟨hle, indexAt_some_of_lt o.columns o.cursor h0 (by omega)⟩
  · intro hs
    unfold lastIndex at h1
    rw [hs] at h1
    simp only at h1
    omega

end components

end MidiViewer
